import Mathlib

/-!
Verification development for the `exhume_lvm` crate (an LVM2 physical-volume
parser).  The top-level orchestration (`Lvm2::open`, the accessors and the
LV-lookup helpers) is embedded from `src/src/lib.rs`.  The helper modules
`header`, `metadata`, `force_de_typed_map` and `lv` are declared in `lib.rs`
but their sources are not part of the repository snapshot, so those parts are
modelled from the specification (spec.md §3, §4.A, §4.B, §4.C); every such
definition carries a doc comment starting with `Modelled from the spec:`.

Conventions of the embedding:
* Rust byte buffers and Rust `String`s are both `List Nat` (byte values);
  machine integers are `Nat` with explicit `% 2 ^ 64` where the source can
  wrap (release-mode semantics).
* fallible code returns `Except`; a Rust panic (the possible
  out-of-bounds slice `&buf[data_offset..]` at lib.rs:115) is an explicit
  `ORes.panic` outcome.
* the external `Read + Seek` source is a `Reader` (byte list plus cursor);
  every reader operation `open` performs is also recorded in a trace of
  `ROp` values so that the exact operation sequence can be stated.
-/

deriving instance DecidableEq for Except

namespace ExhumeLvm

/-- Byte codes of an ASCII Lean string (`String.data` view suffices: all
strings used in this development are ASCII). -/
def asc (s : String) : List Nat := s.data.map Char.toNat

/-- Little-endian value of a byte list. -/
def le (bs : List Nat) : Nat := bs.foldr (fun b acc => b + 256 * acc) 0

/-- Little-endian encoding of `n` on `w` bytes. -/
def leBytes : Nat → Nat → List Nat
  | 0, _ => []
  | w + 1, n => (n % 256) :: leBytes w (n / 256)

/-- Take `n` leading bytes of a buffer, returning the taken bytes and the
remainder; fails when fewer than `n` bytes remain. -/
def readBytes (n : Nat) (buf : List Nat) : Option (List Nat × List Nat) :=
  if n ≤ buf.length then some (buf.take n, buf.drop n) else none

/-- Decode a little-endian u32 from the head of a buffer. -/
def readU32 (buf : List Nat) : Option (Nat × List Nat) :=
  (readBytes 4 buf).map (fun p => (le p.1, p.2))

/-- Decode a little-endian u64 from the head of a buffer. -/
def readU64 (buf : List Nat) : Option (Nat × List Nat) :=
  (readBytes 8 buf).map (fun p => (le p.1, p.2))

/-- The error enum of the crate, embedded from `src/src/lib.rs:26-49`.
The payloads of `Io`, `ParseError` and `Serde` (external error types and the
`e.to_string()` text) are abstracted to plain strings. -/
inductive Error where
  | Io (source : String)
  | WrongMagic
  | ParseError (error : String)
  | MultipleVGsError
  | PVDoesntContainItself
  | Serde (source : String)
  | MissingMetadata
deriving DecidableEq, Repr

/-- Name of the variant an `Error` value was built with. -/
def Error.variantName : Error → String
  | .Io _ => "Io"
  | .WrongMagic => "WrongMagic"
  | .ParseError _ => "ParseError"
  | .MultipleVGsError => "MultipleVGsError"
  | .PVDoesntContainItself => "PVDoesntContainItself"
  | .Serde _ => "Serde"
  | .MissingMetadata => "MissingMetadata"

/-- The constructor names of `Error`, in declaration order
(`src/src/lib.rs:26-49`). -/
def Error.ctorNames : List String :=
  ["Io", "WrongMagic", "ParseError", "MultipleVGsError",
   "PVDoesntContainItself", "Serde", "MissingMetadata"]

/-- Modelled from the spec: §3 `PhysicalVolumeLabelHeader` (module `header`
is not in the snapshot).  Only the fields `lib.rs` uses are carried
(`sector_number`, `checksum`, `data_offset`; the signature and type
indicator are validated and discarded). -/
structure PhysicalVolumeLabelHeader where
  sector_number : Nat
  checksum : Nat
  data_offset : Nat
deriving DecidableEq, Repr

/-- Modelled from the spec: §3 — a `(offset, size)` descriptor pair of the
PV header, in bytes relative to the start of the PV. -/
structure DiskLocn where
  offset : Nat
  size : Nat
deriving DecidableEq, Repr

/-- Modelled from the spec: §3 `PhysicalVolumeHeader`. -/
structure PhysicalVolumeHeader where
  pv_ident : List Nat
  pv_size : Nat
  data_descriptors : List DiskLocn
  metadata_descriptors : List DiskLocn
deriving DecidableEq, Repr

/-- Modelled from the spec: §3 — a raw-location descriptor of the
metadata-area header `(data_area_offset, data_area_size, checksum, flags)`. -/
structure RawLocn where
  data_area_offset : Nat
  data_area_size : Nat
  checksum : Nat
  flags : Nat
deriving DecidableEq, Repr

/-- Modelled from the spec: §3 `MetadataAreaHeader`. -/
structure MetadataAreaHeader where
  checksum : Nat
  version : Nat
  metadata_area_offset : Nat
  metadata_area_size : Nat
  location_descriptors : List RawLocn
deriving DecidableEq, Repr

/-- Modelled from the spec: §4.A label decode.  Requires the signature
`LABELONE` and the type indicator `LVM2 001`; reads sector-number, checksum
and data-offset in between.  `lib.rs:107-109` wraps any error text of this
decoder into `Error.ParseError`, so the decoder reports errors as strings. -/
def PhysicalVolumeLabelHeader.parse (buf : List Nat) :
    Except String PhysicalVolumeLabelHeader :=
  match readBytes 8 buf with
  | none => .error "unexpected end of input"
  | some (sig, r1) =>
    if sig ≠ asc "LABELONE" then .error "WrongMagic" else
    match readU64 r1 with
    | none => .error "unexpected end of input"
    | some (sector, r2) =>
      match readU32 r2 with
      | none => .error "unexpected end of input"
      | some (cksum, r3) =>
        match readU32 r3 with
        | none => .error "unexpected end of input"
        | some (doff, r4) =>
          match readBytes 8 r4 with
          | none => .error "unexpected end of input"
          | some (ty, _) =>
            if ty ≠ asc "LVM2 001" then .error "WrongMagic" else
            .ok ⟨sector, cksum, doff⟩

/-- Modelled from the spec: §4.A — read `(u64, u64)` descriptor pairs until
the all-zero terminator, which is consumed and not emitted; a pair with only
one zero field is not a terminator.  Fuel bounds the recursion (each step
consumes 16 bytes, so `buf.length + 1` fuel can never run out first). -/
def parseDiskLocns : Nat → List Nat → Except String (List DiskLocn × List Nat)
  | 0, _ => .error "unexpected end of input"
  | fuel + 1, buf =>
    match readU64 buf with
    | none => .error "unexpected end of input"
    | some (off, r1) =>
      match readU64 r1 with
      | none => .error "unexpected end of input"
      | some (sz, r2) =>
        if off = 0 ∧ sz = 0 then .ok ([], r2)
        else
          match parseDiskLocns fuel r2 with
          | .error e => .error e
          | .ok (ds, r3) => .ok (⟨off, sz⟩ :: ds, r3)

/-- Modelled from the spec: §4.A PV-header decode.  Input is the label sheet
sliced at `data_offset`.  Reads the 32-byte pv-ident and the u64 pv-size,
then the two zero-terminated descriptor arrays (data areas first, metadata
areas second). -/
def PhysicalVolumeHeader.parse (buf : List Nat) :
    Except String PhysicalVolumeHeader :=
  match readBytes 32 buf with
  | none => .error "unexpected end of input"
  | some (ident, r1) =>
    match readU64 r1 with
    | none => .error "unexpected end of input"
    | some (pvsize, r2) =>
      match parseDiskLocns (buf.length + 1) r2 with
      | .error e => .error e
      | .ok (datad, r3) =>
        match parseDiskLocns (buf.length + 1) r3 with
        | .error e => .error e
        | .ok (metad, _) => .ok ⟨ident, pvsize, datad, metad⟩

/-- Modelled from the spec: §4.A — read `(u64, u64, u32, u32)` raw-location
descriptors until the all-zero terminator (all four fields zero). -/
def parseRawLocns : Nat → List Nat → Except String (List RawLocn × List Nat)
  | 0, _ => .error "unexpected end of input"
  | fuel + 1, buf =>
    match readU64 buf with
    | none => .error "unexpected end of input"
    | some (aoff, r1) =>
      match readU64 r1 with
      | none => .error "unexpected end of input"
      | some (asz, r2) =>
        match readU32 r2 with
        | none => .error "unexpected end of input"
        | some (ck, r3) =>
          match readU32 r3 with
          | none => .error "unexpected end of input"
          | some (fl, r4) =>
            if aoff = 0 ∧ asz = 0 ∧ ck = 0 ∧ fl = 0 then .ok ([], r4)
            else
              match parseRawLocns fuel r4 with
              | .error e => .error e
              | .ok (ds, r5) => .ok (⟨aoff, asz, ck, fl⟩ :: ds, r5)

/-- The 16-byte vendor magic of the metadata-area header (spec §3). -/
def mdaMagic : List Nat := asc " LVM2 x[5A%r0N*>"

/-- Modelled from the spec: §4.A metadata-area-header decode.  Reads the
checksum, verifies the signature, reads version, metadata-area offset and
size, then the zero-terminated raw-location descriptor array. -/
def MetadataAreaHeader.parse (buf : List Nat) :
    Except String MetadataAreaHeader :=
  match readU32 buf with
  | none => .error "unexpected end of input"
  | some (cksum, r1) =>
    match readBytes 16 r1 with
    | none => .error "unexpected end of input"
    | some (sig, r2) =>
      if sig ≠ mdaMagic then .error "WrongMagic" else
      match readU32 r2 with
      | none => .error "unexpected end of input"
      | some (ver, r3) =>
        match readU64 r3 with
        | none => .error "unexpected end of input"
        | some (maoff, r4) =>
          match readU64 r4 with
          | none => .error "unexpected end of input"
          | some (masz, r5) =>
            match parseRawLocns (buf.length + 1) r5 with
            | .error e => .error e
            | .ok (locs, _) => .ok ⟨cksum, ver, maoff, masz, locs⟩

/-- Is `c` a UTF-8 continuation byte? -/
def isCont (c : Nat) : Bool := 128 ≤ c && c ≤ 191

/-- Strict UTF-8 validity of a byte list (the check `read_to_string`
performs on every chunk it reads; surrogates and overlong forms are
rejected, as in Rust's `str::from_utf8`). -/
def validUtf8 : List Nat → Bool
  | [] => true
  | c :: cs =>
    if c ≤ 127 then validUtf8 cs
    else if 194 ≤ c && c ≤ 223 then
      match cs with
      | c1 :: cs1 => isCont c1 && validUtf8 cs1
      | [] => false
    else if c = 224 then
      match cs with
      | c1 :: c2 :: cs2 => (160 ≤ c1 && c1 ≤ 191) && isCont c2 && validUtf8 cs2
      | _ => false
    else if (225 ≤ c && c ≤ 236) || c = 238 || c = 239 then
      match cs with
      | c1 :: c2 :: cs2 => isCont c1 && isCont c2 && validUtf8 cs2
      | _ => false
    else if c = 237 then
      match cs with
      | c1 :: c2 :: cs2 => (128 ≤ c1 && c1 ≤ 159) && isCont c2 && validUtf8 cs2
      | _ => false
    else if c = 240 then
      match cs with
      | c1 :: c2 :: c3 :: cs3 =>
        (144 ≤ c1 && c1 ≤ 191) && isCont c2 && isCont c3 && validUtf8 cs3
      | _ => false
    else if 241 ≤ c && c ≤ 243 then
      match cs with
      | c1 :: c2 :: c3 :: cs3 => isCont c1 && isCont c2 && isCont c3 && validUtf8 cs3
      | _ => false
    else if c = 244 then
      match cs with
      | c1 :: c2 :: c3 :: cs3 =>
        (128 ≤ c1 && c1 ≤ 143) && isCont c2 && isCont c3 && validUtf8 cs3
      | _ => false
    else false

/-- The external `Read + Seek` byte source: content plus cursor. -/
structure Reader where
  data : List Nat
  pos : Nat
deriving DecidableEq, Repr

/-- Absolute seek (`SeekFrom::Start`). -/
def Reader.seek (r : Reader) (tgt : Nat) : Reader := ⟨r.data, tgt⟩

/-- Rust `read_exact` into an `n`-byte buffer: fails (leaving an `Io`
error) when fewer than `n` bytes remain. -/
def Reader.readExact (r : Reader) (n : Nat) : Except Error (List Nat × Reader) :=
  if r.pos + n ≤ r.data.length then
    .ok ((r.data.drop r.pos).take n, ⟨r.data, r.pos + n⟩)
  else .error (.Io "failed to fill whole buffer")

/-- Rust `reader.by_ref().take(n).read_to_string(..)`: reads up to `n`
bytes (fewer at end of source, without error) and requires the chunk to be
valid UTF-8. -/
def Reader.readToString (r : Reader) (n : Nat) : Except Error (List Nat × Reader) :=
  if validUtf8 ((r.data.drop r.pos).take n) then
    .ok ((r.data.drop r.pos).take n,
      ⟨r.data, r.pos + ((r.data.drop r.pos).take n).length⟩)
  else .error (.Io "stream did not contain valid UTF-8")

/-- One reader operation performed by `open`, for stating the exact
operation sequence: an absolute seek, a `read_exact` of `n` bytes, or a
`take(n).read_to_string`. -/
inductive ROp where
  | seek (tgt : Nat)
  | readE (n : Nat)
  | readStr (n : Nat)
deriving DecidableEq, Repr

/-- Outcome of a fallible Rust computation that can also panic. -/
inductive ORes (α : Type) where
  | ok (a : α)
  | err (e : Error)
  | panic (msg : String)
deriving DecidableEq, Repr

/-! ### Metadata text lexer/parser

Modelled from the spec: §4.B (module `metadata` is not in the snapshot).
The document is a sequence of elements; an element is a scalar assignment
`IDENT = value` or a named section `IDENT { element* }`; values are
integers, quoted strings (backslash escapes for `"` and `\`) and bracketed
value lists.  Whitespace and `#`-to-end-of-line comments separate tokens.
The element list preserves textual order; text after the last parsable
element is returned as trailing garbage, not an error. -/

/-- A value of the metadata config language (spec §4.B). -/
inductive Value where
  | int (i : Int)
  | str (s : List Nat)
  | arr (vs : List Value)

/-- A node of the untyped element tree (spec §4.B). -/
inductive Element where
  | scalar (name : List Nat) (v : Value)
  | section (name : List Nat) (children : List Element)

/-- Is `c` one of space, tab, CR, LF? -/
def isWsByte (c : Nat) : Bool := c = 32 || c = 9 || c = 13 || c = 10

/-- Drop the rest of a `#` comment line (everything up to and including the
next LF). -/
def skipComment : List Nat → List Nat
  | [] => []
  | c :: cs => if c = 10 then cs else skipComment cs

/-- Fuelled whitespace-and-comment skipping (each fuel step consumes at
least one byte, so `s.length` fuel suffices). -/
def skipWsF : Nat → List Nat → List Nat
  | 0, s => s
  | fuel + 1, s =>
    match s with
    | [] => []
    | c :: cs =>
      if isWsByte c then skipWsF fuel cs
      else if c = 35 then skipWsF fuel (skipComment cs)
      else c :: cs

/-- Skip insignificant whitespace and comments. -/
def ws (s : List Nat) : List Nat := skipWsF s.length s

/-- Is `c` a valid identifier start byte (`[A-Za-z_]`)? -/
def isIdentStart (c : Nat) : Bool :=
  (65 ≤ c && c ≤ 90) || (97 ≤ c && c ≤ 122) || c = 95

/-- Is `c` a valid identifier continuation byte (`[A-Za-z0-9_]`)? -/
def isIdentCont (c : Nat) : Bool := isIdentStart c || (48 ≤ c && c ≤ 57)

/-- Greedily take identifier-continuation bytes. -/
def identTake : List Nat → List Nat × List Nat
  | [] => ([], [])
  | c :: cs =>
    if isIdentCont c then
      let (tl, rest) := identTake cs
      (c :: tl, rest)
    else ([], c :: cs)

/-- Parse an `IDENT` token. -/
def parseIdent : List Nat → Option (List Nat × List Nat)
  | [] => none
  | c :: cs =>
    if isIdentStart c then
      let (tl, rest) := identTake cs
      some (c :: tl, rest)
    else none

/-- Parse the body of a quoted string after the opening `"`; only `\"` and
`\\` escapes are recognised. -/
def parseStringBody : List Nat → Option (List Nat × List Nat)
  | [] => none
  | 34 :: cs => some ([], cs)
  | 92 :: c :: cs =>
    if c = 34 || c = 92 then
      (parseStringBody cs).map (fun p => (c :: p.1, p.2))
    else none
  | c :: cs => (parseStringBody cs).map (fun p => (c :: p.1, p.2))

/-- Greedily take decimal digit bytes. -/
def digitsTake : List Nat → List Nat × List Nat
  | [] => ([], [])
  | c :: cs =>
    if 48 ≤ c && c ≤ 57 then
      let (tl, rest) := digitsTake cs
      (c :: tl, rest)
    else ([], c :: cs)

/-- Numeric value of a list of digit bytes. -/
def digitsVal (ds : List Nat) : Nat := ds.foldl (fun acc d => acc * 10 + (d - 48)) 0

/-- Parse an `INT` token (optional minus, then digits); the value must fit
in an i64, as the element tree stores 64-bit signed integers (spec §4.B). -/
def parseInt : List Nat → Option (Int × List Nat)
  | 45 :: cs =>
    match digitsTake cs with
    | ([], _) => none
    | (ds, rest) =>
      if digitsVal ds ≤ 2 ^ 63 then some (-(digitsVal ds : Int), rest) else none
  | s =>
    match digitsTake s with
    | ([], _) => none
    | (ds, rest) =>
      if digitsVal ds < 2 ^ 63 then some ((digitsVal ds : Int), rest) else none

mutual

/-- Parse a value: a string, a bracketed value list, or an integer. -/
def parseValue : Nat → List Nat → Option (Value × List Nat)
  | 0, _ => none
  | fuel + 1, s =>
    match s with
    | 34 :: cs => (parseStringBody cs).map (fun p => (.str p.1, p.2))
    | 91 :: cs =>
      match ws cs with
      | 93 :: rest => some (.arr [], rest)
      | cs1 => (parseValueList fuel cs1).map (fun p => (.arr p.1, p.2))
    | _ => (parseInt s).map (fun p => (.int p.1, p.2))

/-- Parse a non-empty comma-separated value list up to and including the
closing `]`. -/
def parseValueList : Nat → List Nat → Option (List Value × List Nat)
  | 0, _ => none
  | fuel + 1, s =>
    match parseValue fuel s with
    | none => none
    | some (v, rest) =>
      match ws rest with
      | 44 :: rest1 =>
        (parseValueList fuel (ws rest1)).map (fun p => (v :: p.1, p.2))
      | 93 :: rest1 => some ([v], rest1)
      | _ => none

end

mutual

/-- Parse one element: `IDENT = value` or `IDENT { element* }`. -/
def parseElement : Nat → List Nat → Option (Element × List Nat)
  | 0, _ => none
  | fuel + 1, s =>
    match parseIdent (ws s) with
    | none => none
    | some (name, rest) =>
      match ws rest with
      | 61 :: r1 =>
        (parseValue fuel (ws r1)).map (fun p => (.scalar name p.1, p.2))
      | 123 :: r1 =>
        let (children, r2) := parseElements fuel r1
        match ws r2 with
        | 125 :: r3 => some (.section name children, r3)
        | _ => none
      | _ => none

/-- Parse as many elements as possible (`many0` — never fails; stops before
the first non-element text). -/
def parseElements : Nat → List Nat → List Element × List Nat
  | 0, s => ([], s)
  | fuel + 1, s =>
    match parseElement fuel s with
    | none => ([], s)
    | some (e, rest) =>
      let (es, r1) := parseElements fuel rest
      (e :: es, r1)

end

/-- Modelled from the spec: §4.B — parse a metadata document into the
untyped element tree plus trailing garbage.  Element-level failures end the
document (the remainder is trailing garbage), so the parse as a whole
always succeeds; `lib.rs:160-163` still carries an error arm for it, which
the model keeps syntactically. -/
def MetadataElements.parse (s : List Nat) : Except String (List Element × List Nat) :=
  .ok (parseElements (s.length * 4 + 16) s)

/-! ### Typed records and the typed-map deserializer

Modelled from the spec: §3 (record shapes) and §4.C (projection rules) —
module `metadata` and `force_de_typed_map` are not in the snapshot.  The
insertion-ordered maps are lists of key/value pairs; duplicate keys in a
typed keyed map are a `Serde` error; unknown scalars and sections are
ignored; required fields must be present. -/

/-- Modelled from the spec: §3 `SegmentRecord` (the source field `type` is
called `ty` here; `stripe_count`/`stripe_size` are optional). -/
structure SegmentRecord where
  start_extent : Nat
  extent_count : Nat
  ty : List Nat
  stripe_count : Option Nat
  stripe_size : Option Nat
  stripes : List (List Nat × Nat)
deriving DecidableEq, Repr

/-- Modelled from the spec: §3 `PVRecord`. -/
structure PVRecord where
  id : List Nat
  device : List Nat
  status : List (List Nat)
  pe_start : Nat
  dev_size : Nat
deriving DecidableEq, Repr

/-- Modelled from the spec: §3 `LVRecord`. -/
structure LVRecord where
  id : List Nat
  status : List (List Nat)
  segment_count : Nat
  segments : List (List Nat × SegmentRecord)
deriving DecidableEq, Repr

/-- Modelled from the spec: §3 `VolumeGroup` — the VG body record the
crate calls `MetadataRoot` (`lib.rs:23`). -/
structure MetadataRoot where
  id : List Nat
  seqno : Nat
  format : List Nat
  status : List (List Nat)
  extent_size : Nat
  max_lv : Nat
  max_pv : Nat
  physical_volumes : List (List Nat × PVRecord)
  logical_volumes : List (List Nat × LVRecord)
deriving DecidableEq, Repr

/-- First scalar child with the given name, if any. -/
def getScalar? (els : List Element) (name : List Nat) : Option Value :=
  els.findSome? fun e =>
    match e with
    | .scalar n v => if n = name then some v else none
    | .section _ _ => none

/-- First section child with the given name, if any. -/
def getSection? (els : List Element) (name : List Nat) : Option (List Element) :=
  els.findSome? fun e =>
    match e with
    | .scalar _ _ => none
    | .section n c => if n = name then some c else none

/-- Required string field. -/
def reqStr (els : List Element) (name : List Nat) : Except String (List Nat) :=
  match getScalar? els name with
  | some (.str s) => .ok s
  | some _ => .error "invalid type"
  | none => .error "missing field"

/-- Required unsigned integer field (signed 64-bit scalar narrowed to u64,
spec §4.C: negative values are a `Serde` error). -/
def reqNat (els : List Element) (name : List Nat) : Except String Nat :=
  match getScalar? els name with
  | some (.int i) => if i < 0 then .error "invalid value" else .ok i.toNat
  | some _ => .error "invalid type"
  | none => .error "missing field"

/-- Optional unsigned integer field. -/
def optNat (els : List Element) (name : List Nat) : Except String (Option Nat) :=
  match getScalar? els name with
  | some (.int i) => if i < 0 then .error "invalid value" else .ok (some i.toNat)
  | some _ => .error "invalid type"
  | none => .ok none

/-- Project an array of strings (a flag list, spec §4.C). -/
def strList : List Value → Except String (List (List Nat))
  | [] => .ok []
  | .str s :: vs => (strList vs).map (fun t => s :: t)
  | _ => .error "invalid type"

/-- Required flag-list field. -/
def reqFlags (els : List Element) (name : List Nat) : Except String (List (List Nat)) :=
  match getScalar? els name with
  | some (.arr vs) => strList vs
  | some _ => .error "invalid type"
  | none => .error "missing field"

/-- Pair up a flat `[str, int, str, int, ...]` array into
`(pv_name, pv_extent_offset)` stripes (spec §3 `SegmentRecord`). -/
def stripePairs : List Value → Except String (List (List Nat × Nat))
  | [] => .ok []
  | .str s :: .int i :: vs =>
    if i < 0 then .error "invalid value"
    else (stripePairs vs).map (fun t => (s, i.toNat) :: t)
  | _ => .error "invalid type"

/-- Optional stripes field (absent means no stripes). -/
def optStripes (els : List Element) (name : List Nat) :
    Except String (List (List Nat × Nat)) :=
  match getScalar? els name with
  | some (.arr vs) => stripePairs vs
  | some _ => .error "invalid type"
  | none => .ok []

/-- The section children of an element list, in textual order. -/
def sectionsOf (els : List Element) : List (List Nat × List Element) :=
  els.filterMap fun e =>
    match e with
    | .scalar _ _ => none
    | .section n c => some (n, c)

/-- Are the keys pairwise distinct? -/
def keysNodup : List (List Nat) → Bool
  | [] => true
  | k :: ks => !ks.contains k && keysNodup ks

/-- Deserialize every named child section with `d`, preserving order. -/
def deEach {α : Type} (d : List Element → Except String α) :
    List (List Nat × List Element) → Except String (List (List Nat × α))
  | [] => .ok []
  | p :: ps =>
    match d p.2 with
    | .error e => .error e
    | .ok a =>
      match deEach d ps with
      | .error e => .error e
      | .ok m => .ok ((p.1, a) :: m)

/-- Modelled from the spec: §4.C the typed keyed map
(`ForceDeTypedMap<String, T>`): the child sections of a section become an
ordered `name → T` map; child scalars are ignored; repeated keys are an
error. -/
def deTypedMap {α : Type} (d : List Element → Except String α) (els : List Element) :
    Except String (List (List Nat × α)) :=
  if keysNodup ((sectionsOf els).map (·.1)) then deEach d (sectionsOf els)
  else .error "duplicate key"

/-- Required typed-keyed-map field (a section whose children are deserialized
with `d`). -/
def reqMap {α : Type} (d : List Element → Except String α) (els : List Element)
    (name : List Nat) : Except String (List (List Nat × α)) :=
  match getSection? els name with
  | some ch => deTypedMap d ch
  | none => .error "missing field"

/-- Modelled from the spec: §3/§4.C — deserialize one segment record. -/
def deserSegment (els : List Element) : Except String SegmentRecord :=
  match reqNat els (asc "start_extent") with
  | .error e => .error e
  | .ok se =>
    match reqNat els (asc "extent_count") with
    | .error e => .error e
    | .ok ec =>
      match reqStr els (asc "type") with
      | .error e => .error e
      | .ok ty =>
        match optNat els (asc "stripe_count") with
        | .error e => .error e
        | .ok sc =>
          match optNat els (asc "stripe_size") with
          | .error e => .error e
          | .ok ss =>
            match optStripes els (asc "stripes") with
            | .error e => .error e
            | .ok st => .ok ⟨se, ec, ty, sc, ss, st⟩

/-- Modelled from the spec: §3/§4.C — deserialize one PV record. -/
def deserPV (els : List Element) : Except String PVRecord :=
  match reqStr els (asc "id") with
  | .error e => .error e
  | .ok i =>
    match reqStr els (asc "device") with
    | .error e => .error e
    | .ok dv =>
      match reqFlags els (asc "status") with
      | .error e => .error e
      | .ok st =>
        match reqNat els (asc "pe_start") with
        | .error e => .error e
        | .ok ps =>
          match reqNat els (asc "dev_size") with
          | .error e => .error e
          | .ok ds => .ok ⟨i, dv, st, ps, ds⟩

/-- Modelled from the spec: §3/§4.C — deserialize one LV record. -/
def deserLV (els : List Element) : Except String LVRecord :=
  match reqStr els (asc "id") with
  | .error e => .error e
  | .ok i =>
    match reqFlags els (asc "status") with
    | .error e => .error e
    | .ok st =>
      match reqNat els (asc "segment_count") with
      | .error e => .error e
      | .ok sc =>
        match reqMap deserSegment els (asc "segments") with
        | .error e => .error e
        | .ok segs => .ok ⟨i, st, sc, segs⟩

/-- Modelled from the spec: §3/§4.C — deserialize the VG body
(`MetadataRoot`). -/
def deserMetadataRoot (els : List Element) : Except String MetadataRoot :=
  match reqStr els (asc "id") with
  | .error e => .error e
  | .ok i =>
    match reqNat els (asc "seqno") with
    | .error e => .error e
    | .ok sq =>
      match reqStr els (asc "format") with
      | .error e => .error e
      | .ok fm =>
        match reqFlags els (asc "status") with
        | .error e => .error e
        | .ok st =>
          match reqNat els (asc "extent_size") with
          | .error e => .error e
          | .ok es =>
            match reqNat els (asc "max_lv") with
            | .error e => .error e
            | .ok ml =>
              match reqNat els (asc "max_pv") with
              | .error e => .error e
              | .ok mp =>
                match reqMap deserPV els (asc "physical_volumes") with
                | .error e => .error e
                | .ok pvs =>
                  match reqMap deserLV els (asc "logical_volumes") with
                  | .error e => .error e
                  | .ok lvs => .ok ⟨i, sq, fm, st, es, ml, mp, pvs, lvs⟩

/-- The top-level projection
`ForceDeTypedMap::<String, MetadataRoot>::deserialize` of `lib.rs:166-168`:
the document's top-level sections become a `name → MetadataRoot` map. -/
def deserTop (els : List Element) : Except String (List (List Nat × MetadataRoot)) :=
  deTypedMap deserMetadataRoot els

/-! ### The opened handle and the `open` pipeline (`src/src/lib.rs`) -/

/-- The opened-PV handle, embedded from `src/src/lib.rs:19-24`. -/
structure Lvm2 where
  pvh : PhysicalVolumeHeader
  pv_name : List Nat
  vg_name : List Nat
  vg_config : MetadataRoot
deriving DecidableEq, Repr

/-- Stage 1 of `open` (`lib.rs:101-125`): seek to byte 512, `read_exact`
512 bytes, decode the label header from them, then decode the PV header
from the same sheet sliced at `data_offset` (`&buf[data_offset..]` panics
when `data_offset > 512`).  Returns the two headers, the reader as left by
the reads, and the trace of reader operations performed. -/
def headersT (r0 : Reader) :
    ORes (PhysicalVolumeLabelHeader × PhysicalVolumeHeader × Reader) × List ROp :=
  match (r0.seek 512).readExact 512 with
  | .error e => (.err e, [ROp.seek 512, ROp.readE 512])
  | .ok (buf, r1) =>
    match PhysicalVolumeLabelHeader.parse buf with
    | .error e => (.err (.ParseError e), [ROp.seek 512, ROp.readE 512])
    | .ok vhl =>
      if vhl.data_offset ≤ 512 then
        match PhysicalVolumeHeader.parse (buf.drop vhl.data_offset) with
        | .error e => (.err (.ParseError e), [ROp.seek 512, ROp.readE 512])
        | .ok pvh => (.ok (vhl, pvh, r1), [ROp.seek 512, ROp.readE 512])
      else (.panic "range start index out of range", [ROp.seek 512, ROp.readE 512])

/-- Stage 2 of `open` (`lib.rs:127-143`): take the first metadata-area
descriptor (`MissingMetadata` if there is none), seek to its offset,
`read_exact` 512 bytes and decode the metadata-area header. -/
def mahT (r0 : Reader) :
    ORes (PhysicalVolumeHeader × DiskLocn × MetadataAreaHeader × Reader) × List ROp :=
  match headersT r0 with
  | (.err e, ops) => (.err e, ops)
  | (.panic m, ops) => (.panic m, ops)
  | (.ok (_vhl, pvh, r1), ops) =>
    match pvh.metadata_descriptors.head? with
    | none => (.err .MissingMetadata, ops)
    | some mdesc =>
      match (r1.seek mdesc.offset).readExact 512 with
      | .error e => (.err e, ops ++ [ROp.seek mdesc.offset, ROp.readE 512])
      | .ok (buf2, r3) =>
        match MetadataAreaHeader.parse buf2 with
        | .error e =>
          (.err (.ParseError e), ops ++ [ROp.seek mdesc.offset, ROp.readE 512])
        | .ok mah =>
          (.ok (pvh, mdesc, mah, r3), ops ++ [ROp.seek mdesc.offset, ROp.readE 512])

/-- The metadata-text read loop of `open` (`lib.rs:145-157`): for each
raw-location descriptor in order, seek to
`metadata_descriptor.offset + data_area_offset` (u64 addition, hence the
`% 2 ^ 64`) and `take(data_area_size).read_to_string`, appending the chunk
to the accumulated text. -/
def readLocsT (r : Reader) (mdoff : Nat) :
    List RawLocn → Except Error (List Nat × Reader) × List ROp
  | [] => (.ok ([], r), [])
  | l :: ls =>
    match (r.seek ((mdoff + l.data_area_offset) % 2 ^ 64)).readToString
        l.data_area_size with
    | .error e =>
      (.error e, [ROp.seek ((mdoff + l.data_area_offset) % 2 ^ 64),
        ROp.readStr l.data_area_size])
    | .ok (chunk, r1) =>
      match readLocsT r1 mdoff ls with
      | (.error e, ops) =>
        (.error e, [ROp.seek ((mdoff + l.data_area_offset) % 2 ^ 64),
          ROp.readStr l.data_area_size] ++ ops)
      | (.ok (rest, r2), ops) =>
        (.ok (chunk ++ rest, r2), [ROp.seek ((mdoff + l.data_area_offset) % 2 ^ 64),
          ROp.readStr l.data_area_size] ++ ops)

/-- Stage 3 of `open` (`lib.rs:145-158`): run the metadata-text read loop
over all raw-location descriptors of the metadata-area header. -/
def textT (r0 : Reader) :
    ORes (PhysicalVolumeHeader × DiskLocn × MetadataAreaHeader × List Nat × Reader)
      × List ROp :=
  match mahT r0 with
  | (.err e, ops) => (.err e, ops)
  | (.panic m, ops) => (.panic m, ops)
  | (.ok (pvh, mdesc, mah, r1), ops) =>
    match readLocsT r1 mdesc.offset mah.location_descriptors with
    | (.error e, lops) => (.err e, ops ++ lops)
    | (.ok (text, r2), lops) => (.ok (pvh, mdesc, mah, text, r2), ops ++ lops)

/-- The pure tail of stage 4 (`lib.rs:160-169`): parse the concatenated
text into the element tree (trailing garbage is logged, not an error) and
project it onto `name → MetadataRoot`. -/
def metaProject (text : List Nat) : Except Error (List (List Nat × MetadataRoot)) :=
  match MetadataElements.parse text with
  | .error e => .error (.ParseError e)
  | .ok (els, _trailing) =>
    match deserTop els with
    | .error e => .error (.Serde e)
    | .ok root => .ok root

/-- Stage 4 of `open` (`lib.rs:160-169`): parse and project the metadata
text read by stage 3. -/
def rootT (r0 : Reader) :
    ORes (PhysicalVolumeHeader × List (List Nat × MetadataRoot)) × List ROp :=
  match textT r0 with
  | (.err e, ops) => (.err e, ops)
  | (.panic m, ops) => (.panic m, ops)
  | (.ok (pvh, _mdesc, _mah, text, _r1), ops) =>
    match metaProject text with
    | .error e => (.err e, ops)
    | .ok root => (.ok (pvh, root), ops)

/-- The dash-stripping PV-id comparison of `lib.rs:177`
(`v.id.replace('-', "") == pvh.pv_ident`). -/
def pvIdMatches (pvh : PhysicalVolumeHeader) (p : List Nat × PVRecord) : Bool :=
  p.2.id.filter (fun c => c ≠ 45) == pvh.pv_ident

/-- Stage 5 of `open` (`lib.rs:171-187`): enforce exactly one top-level VG
(`MultipleVGsError` otherwise), then find the first PV record whose id with
dashes removed equals the binary `pv_ident` (`PVDoesntContainItself` when
none matches); the matching record's key becomes `pv_name`. -/
def finalStage (pvh : PhysicalVolumeHeader)
    (root : List (List Nat × MetadataRoot)) : ORes Lvm2 :=
  match root with
  | [(vg_name, vg_config)] =>
    match vg_config.physical_volumes.find? (pvIdMatches pvh) with
    | none => .err .PVDoesntContainItself
    | some p => .ok ⟨pvh, p.1, vg_name, vg_config⟩
  | _ => .err .MultipleVGsError

/-- `Lvm2::open` (`lib.rs:100-188`) together with the trace of reader
operations it performs. -/
def Lvm2.openT (r0 : Reader) : ORes Lvm2 × List ROp :=
  match rootT r0 with
  | (.err e, ops) => (.err e, ops)
  | (.panic m, ops) => (.panic m, ops)
  | (.ok (pvh, root), ops) => (finalStage pvh root, ops)

/-- `Lvm2::open` (`lib.rs:100-188`). -/
def Lvm2.open (r0 : Reader) : ORes Lvm2 := (Lvm2.openT r0).1

/-- `Lvm2::pv_name` (`lib.rs:88-90`). -/
def Lvm2.pvName (h : Lvm2) : List Nat := h.pv_name

/-- `Lvm2::pv_id` (`lib.rs:224-226`): index the `physical_volumes` map at
`pv_name` and return that record's id.  The Rust map indexing panics when
the key is absent; the model returns `none` in exactly that case. -/
def Lvm2.pv_id (h : Lvm2) : Option (List Nat) :=
  (h.vg_config.physical_volumes.lookup h.pv_name).map (·.id)

/-- `Lvm2::vg_id` (`lib.rs:231-233`). -/
def Lvm2.vg_id (h : Lvm2) : List Nat := h.vg_config.id

/-- `Lvm2::extent_size` (`lib.rs:235-237`): `extent_size * 512` as u64
(release-mode wrapping multiplication). -/
def Lvm2.extent_size (h : Lvm2) : Nat := h.vg_config.extent_size * 512 % 2 ^ 64

/-- Modelled from the spec: an `LV` handle (`lv.rs` is not in the
snapshot): a name/record pair from the `logical_volumes` map, as built by
`Lvm2::lvs` (`lib.rs:92-97`). -/
structure LV where
  name : List Nat
  desc : LVRecord
deriving DecidableEq, Repr

/-- Modelled from the spec: `LV::id` exposes the LV record's id (spec §6
`open_lv_by_id(uuid)`; `lv.id()` at `lib.rs:207`). -/
def LV.id (lv : LV) : List Nat := lv.desc.id

/-- `Lvm2::lvs` (`lib.rs:92-97`): the `logical_volumes` entries as `LV`
handles, in map (insertion) order. -/
def Lvm2.lvs (h : Lvm2) : List LV :=
  h.vg_config.logical_volumes.map (fun p => ⟨p.1, p.2⟩)

/-- An open LV stream (`lib.rs:210-222`); the borrows of the `Lvm2` value
and of the reader are not part of the state the claims touch and are
elided. -/
structure OpenLV where
  lv : LV
  position : Nat
  current_segment_end : Nat
deriving DecidableEq, Repr

/-- `Lvm2::open_lv` (`lib.rs:210-222`). -/
def Lvm2.open_lv (_h : Lvm2) (lv : LV) : OpenLV := ⟨lv, 0, 0⟩

/-- `Lvm2::open_lv_by_id` (`lib.rs:201-209`): find the first LV whose id
equals the supplied id exactly, and open it. -/
def Lvm2.open_lv_by_id (h : Lvm2) (i : List Nat) : Option OpenLV :=
  (h.lvs.find? (fun lv => lv.id == i)).map h.open_lv

/-- Is an outcome a success? -/
def ORes.isOk {α : Type} : ORes α → Bool
  | .ok _ => true
  | _ => false

/-! ### Concrete disk images

Small synthetic physical volumes used to instantiate the theorems: a zero
sheet, the label sheet at byte 512 (label header followed by the PV header
at `data_offset`), the metadata-area header at byte 1024 with one
raw-location descriptor pointing at byte 1536, and the metadata text
there. -/

/-- PV-header bytes of the main image: 32-byte pv-ident (32 × `A`),
pv-size 8192, empty data-area array, one metadata-area descriptor
`(offset 1024, size 2048)`. -/
def pvBodyMain : List Nat :=
  List.replicate 32 65 ++ leBytes 8 8192 ++ List.replicate 16 0
    ++ (leBytes 8 1024 ++ leBytes 8 2048) ++ List.replicate 16 0

/-- Label sheet of the main image: `LABELONE`, sector 1, checksum 0,
`data_offset` 32, type `LVM2 001`, then the PV header at byte 32. -/
def labelSheetMain : List Nat :=
  asc "LABELONE" ++ leBytes 8 1 ++ leBytes 4 0 ++ leBytes 4 32 ++ asc "LVM2 001"
    ++ pvBodyMain ++ List.replicate 392 0

/-- Metadata-area sheet: checksum 0, vendor magic, version 1, area offset
1024, area size 2048, one raw-location descriptor
`(data_area_offset 512, data_area_size declSize, 0, 0)`. -/
def mahRegion (declSize : Nat) : List Nat :=
  leBytes 4 0 ++ mdaMagic ++ leBytes 4 1 ++ leBytes 8 1024 ++ leBytes 8 2048
    ++ (leBytes 8 512 ++ leBytes 8 declSize ++ leBytes 4 0 ++ leBytes 4 0)
    ++ List.replicate 24 0 ++ List.replicate 424 0

/-- Assemble an image: zero sheet, label sheet, metadata-area sheet at
1024, metadata text at 1536. -/
def mkImg (sheet : List Nat) (declSize : Nat) (text : List Nat) : List Nat :=
  List.replicate 512 0 ++ sheet ++ mahRegion declSize ++ text

/-- Metadata text of the main images, with a parameterisable
`extent_size` literal. -/
def vgText (es : String) : List Nat :=
  asc ("vg0 \x7b\nid = \"VGVGVGVGVGVGVG\"\nseqno = 1\nformat = \"lvm2\"\n"
    ++ "status = [\"RESIZEABLE\", \"READ\", \"WRITE\"]\nextent_size = " ++ es
    ++ "\nmax_lv = 0\nmax_pv = 0\nphysical_volumes \x7b\npv0 \x7b\n"
    ++ "id = \"AAAAAA-AAAA-AAAA-AAAA-AAAA-AAAA-AAAAAA\"\ndevice = \"/dev/sda\"\n"
    ++ "status = [\"ALLOCATABLE\"]\npe_start = 2048\ndev_size = 8192\n\x7d\n\x7d\n"
    ++ "logical_volumes \x7b\n\x7d\n\x7d\n")

/-- The main success image (`extent_size = 8`). -/
def imgMain : List Nat := mkImg labelSheetMain (vgText "8").length (vgText "8")

/-- Same image with `extent_size = 0`. -/
def imgZeroES : List Nat := mkImg labelSheetMain (vgText "0").length (vgText "0")

/-- Image whose raw-location descriptor declares 1000 more bytes than the
source holds (the text area is the tail of the image). -/
def imgShort : List Nat :=
  mkImg labelSheetMain ((vgText "8").length + 1000) (vgText "8")

/-- Expected PV header of the main images. -/
def mainPvh : PhysicalVolumeHeader :=
  ⟨List.replicate 32 65, 8192, [], [⟨1024, 2048⟩]⟩

/-- Expected PV record of the main images. -/
def mainPVRec : PVRecord :=
  ⟨asc "AAAAAA-AAAA-AAAA-AAAA-AAAA-AAAA-AAAAAA", asc "/dev/sda",
   [asc "ALLOCATABLE"], 2048, 8192⟩

/-- Expected VG body of the main images, with parameterisable extent
size. -/
def mkRoot (es : Nat) : MetadataRoot :=
  ⟨asc "VGVGVGVGVGVGVG", 1, asc "lvm2",
   [asc "RESIZEABLE", asc "READ", asc "WRITE"], es, 0, 0,
   [(asc "pv0", mainPVRec)], []⟩

/-- Expected opened handle of `imgMain`. -/
def mainLvm2 : Lvm2 := ⟨mainPvh, asc "pv0", asc "vg0", mkRoot 8⟩

/-- Expected opened handle of `imgZeroES`. -/
def zeroESLvm2 : Lvm2 := ⟨mainPvh, asc "pv0", asc "vg0", mkRoot 0⟩

/-- Image whose PV header advertises zero metadata-area descriptors
(scenario S1 of the spec): both descriptor arrays are immediately
terminated. -/
def imgS1 : List Nat :=
  List.replicate 512 0
    ++ (asc "LABELONE" ++ leBytes 8 1 ++ leBytes 4 0 ++ leBytes 4 32
      ++ asc "LVM2 001"
      ++ List.replicate 32 65 ++ leBytes 8 8192 ++ List.replicate 16 0
      ++ List.replicate 16 0 ++ List.replicate 408 0)

/-- Label sheet with `data_offset = 16`, which makes the decoded pv-ident
overlap the label checksum field (bytes 16..20 of the sheet): the pv-ident
becomes checksum ++ data-offset bytes ++ type indicator ++ 16 filler
bytes. -/
def sheetOverlap (cks : List Nat) : List Nat :=
  asc "LABELONE" ++ leBytes 8 1 ++ cks ++ leBytes 4 16 ++ asc "LVM2 001"
    ++ asc "CCCCCCCCCCCCCCCC"
    ++ leBytes 8 0 ++ List.replicate 16 0
    ++ (leBytes 8 1024 ++ leBytes 8 2048) ++ List.replicate 16 0
    ++ List.replicate 408 0

/-- The pv-ident decoded from `sheetOverlap cks`. -/
def identOverlap (cks : List Nat) : List Nat :=
  cks ++ leBytes 4 16 ++ asc "LVM2 001" ++ asc "CCCCCCCCCCCCCCCC"

/-- Metadata text whose single PV record carries exactly the id
`identOverlap [65, 65, 65, 65]` (raw bytes inside the quoted string). -/
def textOverlap : List Nat :=
  asc ("vg0 \x7b id = \"VG\" seqno = 1 format = \"lvm2\" status = [\"READ\"] "
      ++ "extent_size = 8 max_lv = 0 max_pv = 0 physical_volumes \x7b pv0 \x7b id = \"")
    ++ identOverlap [65, 65, 65, 65]
    ++ asc ("\" device = \"/dev/sda\" status = [\"ALLOCATABLE\"] pe_start = 2048 "
      ++ "dev_size = 8192 \x7d \x7d logical_volumes \x7b \x7d \x7d")

/-- Overlap image with label checksum `AAAA`: opens successfully. -/
def imgOverlapA : List Nat :=
  mkImg (sheetOverlap [65, 65, 65, 65]) textOverlap.length textOverlap

/-- Overlap image with label checksum `BBBB`: differs from `imgOverlapA`
only in the label-header checksum field (bytes 528..531) yet fails to
open. -/
def imgOverlapB : List Nat :=
  mkImg (sheetOverlap [66, 66, 66, 66]) textOverlap.length textOverlap

/-- Expected PV header decoded from `sheetOverlap cks`. -/
def overlapPvh (cks : List Nat) : PhysicalVolumeHeader :=
  ⟨identOverlap cks, 0, [], [⟨1024, 2048⟩]⟩

/-- Expected VG body of the overlap images. -/
def overlapRoot : MetadataRoot :=
  ⟨asc "VG", 1, asc "lvm2", [asc "READ"], 8, 0, 0,
   [(asc "pv0", ⟨identOverlap [65, 65, 65, 65], asc "/dev/sda",
     [asc "ALLOCATABLE"], 2048, 8192⟩)], []⟩

/-- Expected opened handle of `imgOverlapA`. -/
def overlapLvm2 : Lvm2 :=
  ⟨overlapPvh [65, 65, 65, 65], asc "pv0", asc "vg0", overlapRoot⟩

/-- A handle with two logical volumes, for exercising the LV-lookup
claims (its ids differ only by a dash from each other's stripped forms). -/
def demoLvm2 : Lvm2 :=
  ⟨mainPvh, asc "pv0", asc "vg0",
   { mkRoot 8 with
      logical_volumes :=
        [(asc "lv1", ⟨asc "LVID-AAAA", [asc "READ"], 0, []⟩),
         (asc "lv2", ⟨asc "LVIDBBBB", [asc "READ"], 0, []⟩)] }⟩

/-- The metadata-area header all the synthetic images carry. -/
def mahHdr (d : Nat) : MetadataAreaHeader := ⟨0, 1, 1024, 2048, [⟨512, d, 0, 0⟩]⟩

/-- The top-level sections of a metadata document (the candidate volume
groups). -/
def topSections (text : List Nat) : List (List Nat × List Element) :=
  match MetadataElements.parse text with
  | .ok (els, _) => sectionsOf els
  | .error _ => []

/-- The byte chunk the metadata-text loop reads for one raw-location
descriptor: up to `data_area_size` bytes starting at
`(metadata descriptor offset + data_area_offset) mod 2 ^ 64`. -/
def locChunk (data : List Nat) (mdoff : Nat) (l : RawLocn) : List Nat :=
  (data.drop ((mdoff + l.data_area_offset) % 2 ^ 64)).take l.data_area_size

/-- Overwrite the bytes of `b` starting at position `a` with `r` (used to
state that two byte sources differ only in a given field). -/
def ow (b : List Nat) (a : Nat) (r : List Nat) : List Nat :=
  b.take a ++ (r ++ b.drop (a + r.length))

/-! ## Theorems

First a toolkit of evaluation lemmas: reader operations on images built by
concatenation are computed symbolically (slicing a concatenation) so that
only 512-byte pieces ever need kernel evaluation. -/

set_option maxRecDepth 8192

theorem leBytes_length (w n : Nat) : (leBytes w n).length = w := by
  induction w generalizing n with
  | zero => rfl
  | succ w ih => simp only [leBytes, List.length_cons, ih]

theorem mahRegion_length (d : Nat) : (mahRegion d).length = 512 := by
  have hm : mdaMagic.length = 16 := by decide
  simp only [mahRegion, List.length_append, leBytes_length,
    List.length_replicate, hm]

theorem readExact_eq (r : Reader) (n : Nat) (h : r.pos + n ≤ r.data.length) :
    r.readExact n = .ok ((r.data.drop r.pos).take n, ⟨r.data, r.pos + n⟩) := by
  simp only [Reader.readExact, if_pos h]

theorem mkImg_parts (sheet : List Nat) (d : Nat) (text : List Nat)
    (h1 : sheet.length = 512) :
    (mkImg sheet d text).length = 1536 + text.length ∧
    ((mkImg sheet d text).drop 512).take 512 = sheet ∧
    ((mkImg sheet d text).drop 1024).take 512 = mahRegion d ∧
    (mkImg sheet d text).drop 1536 = text := by
  have hz : (List.replicate 512 (0 : Nat)).length = 512 := List.length_replicate 512 0
  have hm : (mahRegion d).length = 512 := mahRegion_length d
  unfold mkImg
  refine ⟨?_, ?_, ?_, ?_⟩
  · simp only [List.length_append, hz, h1, hm]
  · rw [List.append_assoc (List.replicate 512 0 ++ sheet) (mahRegion d) text,
      List.append_assoc (List.replicate 512 0) sheet (mahRegion d ++ text),
      List.drop_left' hz, List.take_left' h1]
  · rw [List.append_assoc (List.replicate 512 0 ++ sheet) (mahRegion d) text,
      List.drop_left' (show (List.replicate 512 (0 : Nat) ++ sheet).length = 1024 by
        rw [List.length_append, hz, h1]),
      List.take_left' hm]
  · rw [List.drop_left' (show
      (List.replicate 512 (0 : Nat) ++ sheet ++ mahRegion d).length = 1536 by
        rw [List.length_append, List.length_append, hz, h1, hm])]

/-- Evaluation of stage 1 of `open` on a synthetic image, given the
decoded forms of its pieces. -/
theorem headersT_mkImg (sheet text : List Nat) (d : Nat)
    (vhl : PhysicalVolumeLabelHeader) (pvh : PhysicalVolumeHeader)
    (h1 : sheet.length = 512)
    (h2 : PhysicalVolumeLabelHeader.parse sheet = .ok vhl)
    (h3 : vhl.data_offset ≤ 512)
    (h4 : PhysicalVolumeHeader.parse (sheet.drop vhl.data_offset) = .ok pvh) :
    headersT ⟨mkImg sheet d text, 0⟩ =
      (.ok (vhl, pvh, ⟨mkImg sheet d text, 1024⟩), [.seek 512, .readE 512]) := by
  obtain ⟨hlen, hs512, _, _⟩ := mkImg_parts sheet d text h1
  have hread1 : (Reader.mk (mkImg sheet d text) 512).readExact 512 =
      .ok (sheet, ⟨mkImg sheet d text, 1024⟩) := by
    rw [readExact_eq _ _ (show (512 : Nat) + 512 ≤ (mkImg sheet d text).length by
      rw [hlen]; omega)]
    rw [show (Reader.mk (mkImg sheet d text) 512).data = mkImg sheet d text from rfl,
      show (Reader.mk (mkImg sheet d text) 512).pos = 512 from rfl, hs512]
  simp only [headersT, Reader.seek, hread1, h2, h4, if_pos h3]

/-- Evaluation of stages 1-2 of `open` on a synthetic image. -/
theorem mahT_mkImg (sheet text : List Nat) (d : Nat)
    (vhl : PhysicalVolumeLabelHeader) (pvh : PhysicalVolumeHeader)
    (h1 : sheet.length = 512)
    (h2 : PhysicalVolumeLabelHeader.parse sheet = .ok vhl)
    (h3 : vhl.data_offset ≤ 512)
    (h4 : PhysicalVolumeHeader.parse (sheet.drop vhl.data_offset) = .ok pvh)
    (h5 : pvh.metadata_descriptors.head? = some ⟨1024, 2048⟩)
    (h9 : MetadataAreaHeader.parse (mahRegion d) = .ok (mahHdr d)) :
    mahT ⟨mkImg sheet d text, 0⟩ =
      (.ok (pvh, ⟨1024, 2048⟩, mahHdr d, ⟨mkImg sheet d text, 1536⟩),
       [.seek 512, .readE 512, .seek 1024, .readE 512]) := by
  obtain ⟨hlen, _, hs1024, _⟩ := mkImg_parts sheet d text h1
  have hread2 : (Reader.mk (mkImg sheet d text) 1024).readExact 512 =
      .ok (mahRegion d, ⟨mkImg sheet d text, 1536⟩) := by
    rw [readExact_eq _ _ (show (1024 : Nat) + 512 ≤ (mkImg sheet d text).length by
      rw [hlen]; omega)]
    rw [show (Reader.mk (mkImg sheet d text) 1024).data = mkImg sheet d text from rfl,
      show (Reader.mk (mkImg sheet d text) 1024).pos = 1024 from rfl, hs1024]
  simp only [mahT, headersT_mkImg sheet text d vhl pvh h1 h2 h3 h4, h5,
    Reader.seek, hread2, h9]
  rfl

/-- Full evaluation of the reading stages of `open` on a synthetic image. -/
theorem textT_mkImg (sheet text : List Nat) (d : Nat)
    (vhl : PhysicalVolumeLabelHeader) (pvh : PhysicalVolumeHeader)
    (h1 : sheet.length = 512)
    (h2 : PhysicalVolumeLabelHeader.parse sheet = .ok vhl)
    (h3 : vhl.data_offset ≤ 512)
    (h4 : PhysicalVolumeHeader.parse (sheet.drop vhl.data_offset) = .ok pvh)
    (h5 : pvh.metadata_descriptors.head? = some ⟨1024, 2048⟩)
    (h6 : text.length ≤ d)
    (h8 : validUtf8 text = true)
    (h9 : MetadataAreaHeader.parse (mahRegion d) = .ok (mahHdr d)) :
    textT ⟨mkImg sheet d text, 0⟩ =
      (.ok (pvh, ⟨1024, 2048⟩, mahHdr d, text, ⟨mkImg sheet d text, 1536 + text.length⟩),
       [.seek 512, .readE 512, .seek 1024, .readE 512, .seek 1536, .readStr d]) := by
  obtain ⟨hlen, _, _, hs1536⟩ := mkImg_parts sheet d text h1
  have hreadT : (Reader.mk (mkImg sheet d text) 1536).readToString d =
      .ok (text, ⟨mkImg sheet d text, 1536 + text.length⟩) := by
    simp only [Reader.readToString, hs1536, List.take_of_length_le h6, h8, if_true]
  have htgt : (1024 + (512 : Nat)) % 2 ^ 64 = 1536 := by norm_num
  have hlocs : readLocsT ⟨mkImg sheet d text, 1536⟩ 1024 [⟨512, d, 0, 0⟩] =
      (.ok (text, ⟨mkImg sheet d text, 1536 + text.length⟩),
       [.seek 1536, .readStr d]) := by
    simp only [readLocsT, htgt, Reader.seek, hreadT, List.append_nil]
  simp only [textT, mahT_mkImg sheet text d vhl pvh h1 h2 h3 h4 h5 h9, mahHdr, hlocs]
  rfl

/-- `openT` is determined by `textT` and the pure metadata projection. -/
theorem openT_of_textT (r : Reader) (pvh : PhysicalVolumeHeader) (md : DiskLocn)
    (mah : MetadataAreaHeader) (text : List Nat) (r2 : Reader) (ops : List ROp)
    (h : textT r = (.ok (pvh, md, mah, text, r2), ops)) :
    Lvm2.openT r =
      ((match metaProject text with
        | .error e => ORes.err e
        | .ok root => finalStage pvh root), ops) := by
  simp only [Lvm2.openT, rootT, h]
  cases metaProject text <;> rfl

/-- `openT` evaluated on a synthetic image. -/
theorem open_mkImg (sheet text : List Nat) (d : Nat)
    (vhl : PhysicalVolumeLabelHeader) (pvh : PhysicalVolumeHeader)
    (h1 : sheet.length = 512)
    (h2 : PhysicalVolumeLabelHeader.parse sheet = .ok vhl)
    (h3 : vhl.data_offset ≤ 512)
    (h4 : PhysicalVolumeHeader.parse (sheet.drop vhl.data_offset) = .ok pvh)
    (h5 : pvh.metadata_descriptors.head? = some ⟨1024, 2048⟩)
    (h6 : text.length ≤ d)
    (h8 : validUtf8 text = true)
    (h9 : MetadataAreaHeader.parse (mahRegion d) = .ok (mahHdr d)) :
    Lvm2.openT ⟨mkImg sheet d text, 0⟩ =
      ((match metaProject text with
        | .error e => ORes.err e
        | .ok root => finalStage pvh root),
       [.seek 512, .readE 512, .seek 1024, .readE 512, .seek 1536, .readStr d]) :=
  openT_of_textT _ _ _ _ _ _ _
    (textT_mkImg sheet text d vhl pvh h1 h2 h3 h4 h5 h6 h8 h9)

theorem open_imgMain_eq : Lvm2.open ⟨imgMain, 0⟩ = .ok mainLvm2 := by
  have h := open_mkImg labelSheetMain (vgText "8") ((vgText "8").length)
    ⟨1, 0, 32⟩ mainPvh (by decide) (by decide) (by decide) (by decide)
    (by decide) (Nat.le_refl _) (by decide) (by decide)
  simp only [Lvm2.open, imgMain, h,
    show metaProject (vgText "8") = .ok [(asc "vg0", mkRoot 8)] from by decide]
  decide

theorem open_imgZeroES_eq : Lvm2.open ⟨imgZeroES, 0⟩ = .ok zeroESLvm2 := by
  have h := open_mkImg labelSheetMain (vgText "0") ((vgText "0").length)
    ⟨1, 0, 32⟩ mainPvh (by decide) (by decide) (by decide) (by decide)
    (by decide) (Nat.le_refl _) (by decide) (by decide)
  simp only [Lvm2.open, imgZeroES, h,
    show metaProject (vgText "0") = .ok [(asc "vg0", mkRoot 0)] from by decide]
  decide

theorem textT_imgShort_eq :
    textT ⟨imgShort, 0⟩ =
      (.ok (mainPvh, ⟨1024, 2048⟩, mahHdr ((vgText "8").length + 1000), vgText "8",
        ⟨imgShort, 1536 + (vgText "8").length⟩),
       [.seek 512, .readE 512, .seek 1024, .readE 512, .seek 1536,
        .readStr ((vgText "8").length + 1000)]) := by
  simp only [imgShort]
  exact textT_mkImg labelSheetMain (vgText "8") ((vgText "8").length + 1000)
    ⟨1, 0, 32⟩ mainPvh (by decide) (by decide) (by decide) (by decide)
    (by decide) (Nat.le_add_right _ _) (by decide) (by decide)

theorem open_imgShort_eq : Lvm2.open ⟨imgShort, 0⟩ = .ok mainLvm2 := by
  have h := open_mkImg labelSheetMain (vgText "8") ((vgText "8").length + 1000)
    ⟨1, 0, 32⟩ mainPvh (by decide) (by decide) (by decide) (by decide)
    (by decide) (Nat.le_add_right _ _) (by decide) (by decide)
  simp only [Lvm2.open, imgShort, h,
    show metaProject (vgText "8") = .ok [(asc "vg0", mkRoot 8)] from by decide]
  decide

theorem open_imgOverlapA_eq : Lvm2.open ⟨imgOverlapA, 0⟩ = .ok overlapLvm2 := by
  have h := open_mkImg (sheetOverlap [65, 65, 65, 65]) textOverlap textOverlap.length
    ⟨1, 1094795585, 16⟩ (overlapPvh [65, 65, 65, 65]) (by decide) (by decide)
    (by decide) (by decide) (by decide) (Nat.le_refl _) (by decide) (by decide)
  simp only [Lvm2.open, imgOverlapA, h,
    show metaProject textOverlap = .ok [(asc "vg0", overlapRoot)] from by decide]
  decide

theorem open_imgOverlapB_eq :
    Lvm2.open ⟨imgOverlapB, 0⟩ = .err .PVDoesntContainItself := by
  have h := open_mkImg (sheetOverlap [66, 66, 66, 66]) textOverlap textOverlap.length
    ⟨1, 1111638594, 16⟩ (overlapPvh [66, 66, 66, 66]) (by decide) (by decide)
    (by decide) (by decide) (by decide) (Nat.le_refl _) (by decide) (by decide)
  simp only [Lvm2.open, imgOverlapB, h,
    show metaProject textOverlap = .ok [(asc "vg0", overlapRoot)] from by decide]
  decide

theorem open_imgS1_eq : Lvm2.open ⟨imgS1, 0⟩ = .err .MissingMetadata := by decide

theorem headersT_imgS1_eq :
    headersT ⟨imgS1, 0⟩ =
      (.ok (⟨1, 0, 32⟩, ⟨List.replicate 32 65, 8192, [], []⟩, ⟨imgS1, 1024⟩),
       [.seek 512, .readE 512]) := by decide

/-! ### Association-list and deserializer lemmas -/

theorem keysNodup_cons (k : List Nat) (ks : List (List Nat)) :
    keysNodup (k :: ks) = (!ks.contains k && keysNodup ks) := rfl

theorem lookup_of_find? {β : Type} (l : List (List Nat × β)) (p : List Nat × β → Bool)
    (e : List Nat × β) (hnd : keysNodup (l.map (·.1)) = true)
    (h : l.find? p = some e) : l.lookup e.1 = some e.2 := by
  induction l with
  | nil => simp at h
  | cons a l ih =>
    rw [List.map_cons, keysNodup_cons, Bool.and_eq_true] at hnd
    obtain ⟨hc, hnd1⟩ := hnd
    have hcm : a.1 ∉ l.map (·.1) := by
      intro hmem
      have : (l.map (·.1)).contains a.1 = true := by
        simp only [List.contains]
        exact List.elem_iff.mpr hmem
      rw [this] at hc
      simp at hc
    cases hpa : p a with
    | true =>
      rw [List.find?_cons_of_pos l hpa] at h
      injection h with h
      subst h
      obtain ⟨k, v⟩ := a
      simp [List.lookup]
    | false =>
      rw [List.find?_cons_of_neg l (by rw [hpa]; simp)] at h
      have hmem := List.mem_of_find?_eq_some h
      have hkey : e.1 ∈ l.map (·.1) := List.mem_map.mpr ⟨e, hmem, rfl⟩
      have hne : (e.1 == a.1) = false := by
        cases hbe : e.1 == a.1 with
        | false => rfl
        | true =>
          exact absurd ((eq_of_beq hbe) ▸ hkey) hcm
      obtain ⟨k, v⟩ := a
      simp only [List.lookup]
      rw [show (e.1 == k) = false from hne]
      exact ih hnd1 h

theorem deEach_ok_keys {α : Type} (d : List Element → Except String α)
    (ps : List (List Nat × List Element)) (m : List (List Nat × α))
    (h : deEach d ps = .ok m) : m.map (·.1) = ps.map (·.1) := by
  induction ps generalizing m with
  | nil =>
    rw [deEach] at h
    injection h with h
    subst h
    rfl
  | cons p ps ih =>
    rw [deEach] at h
    split at h
    · exact absurd h (by simp)
    · split at h
      · exact absurd h (by simp)
      · injection h with h
        subst h
        simp only [List.map_cons]
        rw [ih _ (by assumption)]

theorem deEach_ok_mem {α : Type} (d : List Element → Except String α)
    (ps : List (List Nat × List Element)) (m : List (List Nat × α))
    (h : deEach d ps = .ok m) :
    ∀ e ∈ m, ∃ q ∈ ps, q.1 = e.1 ∧ d q.2 = .ok e.2 := by
  induction ps generalizing m with
  | nil =>
    rw [deEach] at h
    injection h with h
    subst h
    intro e he
    simp at he
  | cons p ps ih =>
    rw [deEach] at h
    split at h
    · exact absurd h (by simp)
    · split at h
      · exact absurd h (by simp)
      · injection h with h
        subst h
        intro e he
        rcases List.mem_cons.mp he with he | he
        · subst he
          exact ⟨p, List.mem_cons_self p ps, rfl, by assumption⟩
        · obtain ⟨q, hq, h1, h2⟩ := ih _ (by assumption) e he
          exact ⟨q, List.mem_cons_of_mem p hq, h1, h2⟩

theorem deTypedMap_ok_nodup {α : Type} (d : List Element → Except String α)
    (els : List Element) (m : List (List Nat × α))
    (h : deTypedMap d els = .ok m) :
    keysNodup (m.map (·.1)) = true ∧
    m.map (·.1) = (sectionsOf els).map (·.1) := by
  unfold deTypedMap at h
  split at h
  · have hk := deEach_ok_keys d _ _ h
    exact ⟨by rw [hk]; assumption, hk⟩
  · exact absurd h (by simp)

theorem deTypedMap_ok_mem {α : Type} (d : List Element → Except String α)
    (els : List Element) (m : List (List Nat × α))
    (h : deTypedMap d els = .ok m) :
    ∀ e ∈ m, ∃ q ∈ sectionsOf els, q.1 = e.1 ∧ d q.2 = .ok e.2 := by
  unfold deTypedMap at h
  split at h
  · exact deEach_ok_mem d _ _ h
  · exact absurd h (by simp)

theorem deserMetadataRoot_pv_nodup (els : List Element) (mr : MetadataRoot)
    (h : deserMetadataRoot els = .ok mr) :
    keysNodup (mr.physical_volumes.map (·.1)) = true := by
  unfold deserMetadataRoot at h
  split at h
  · exact absurd h (by simp)
  next i hi =>
  split at h
  · exact absurd h (by simp)
  next sq hsq =>
  split at h
  · exact absurd h (by simp)
  next fm hfm =>
  split at h
  · exact absurd h (by simp)
  next st hst =>
  split at h
  · exact absurd h (by simp)
  next es hes =>
  split at h
  · exact absurd h (by simp)
  next ml hml =>
  split at h
  · exact absurd h (by simp)
  next mp hmp =>
  split at h
  · exact absurd h (by simp)
  next pvs hpvs =>
  split at h
  · exact absurd h (by simp)
  next lvs hlvs =>
  injection h with h
  subst h
  unfold reqMap at hpvs
  split at hpvs
  · exact (deTypedMap_ok_nodup _ _ _ hpvs).1
  · exact absurd hpvs (by simp)

/-! ### Stage inversion lemmas -/

theorem readExact_ok_inv (r : Reader) (n : Nat) (buf : List Nat) (r1 : Reader)
    (h : r.readExact n = .ok (buf, r1)) :
    buf = (r.data.drop r.pos).take n ∧ r1 = ⟨r.data, r.pos + n⟩ ∧
    r.pos + n ≤ r.data.length := by
  unfold Reader.readExact at h
  split at h
  next hle =>
    simp only [Except.ok.injEq, Prod.mk.injEq] at h
    exact ⟨h.1.symm, h.2.symm, hle⟩
  next => exact absurd h (by simp)

theorem headersT_ok_inv (r0 : Reader) (vhl : PhysicalVolumeLabelHeader)
    (pvh : PhysicalVolumeHeader) (r1 : Reader)
    (h : (headersT r0).1 = .ok (vhl, pvh, r1)) :
    ∃ buf, (r0.seek 512).readExact 512 = .ok (buf, r1) ∧
      PhysicalVolumeLabelHeader.parse buf = .ok vhl ∧
      vhl.data_offset ≤ 512 ∧
      PhysicalVolumeHeader.parse (buf.drop vhl.data_offset) = .ok pvh ∧
      r1 = ⟨r0.data, 1024⟩ := by
  unfold headersT at h
  split at h
  next => exact absurd h (by simp)
  next buf r1x hre =>
    split at h
    next => exact absurd h (by simp)
    next vhlx hvhl =>
      split at h
      next hle =>
        split at h
        next => exact absurd h (by simp)
        next pvhx hpvh =>
          simp only [ORes.ok.injEq, Prod.mk.injEq] at h
          obtain ⟨h1, h2, h3⟩ := h
          subst h1; subst h2; subst h3
          obtain ⟨-, hr1, -⟩ := readExact_ok_inv _ _ _ _ hre
          refine ⟨buf, hre, hvhl, hle, hpvh, ?_⟩
          rw [hr1]
          rfl
      next => exact absurd h (by simp)

theorem mahT_ok_inv (r0 : Reader) (pvh : PhysicalVolumeHeader) (mdesc : DiskLocn)
    (mah : MetadataAreaHeader) (r3 : Reader)
    (h : (mahT r0).1 = .ok (pvh, mdesc, mah, r3)) :
    ∃ vhl r1 buf2, (headersT r0).1 = .ok (vhl, pvh, r1) ∧
      pvh.metadata_descriptors.head? = some mdesc ∧
      (r1.seek mdesc.offset).readExact 512 = .ok (buf2, r3) ∧
      MetadataAreaHeader.parse buf2 = .ok mah ∧
      r3 = ⟨r0.data, mdesc.offset + 512⟩ := by
  unfold mahT at h
  split at h
  next => exact absurd h (by simp)
  next => exact absurd h (by simp)
  next vhlx pvhx r1x hops hhd =>
    split at h
    next => exact absurd h (by simp)
    next mdescx hmd =>
      split at h
      next => exact absurd h (by simp)
      next buf2 r3x hre =>
        split at h
        next => exact absurd h (by simp)
        next mahx hmah =>
          simp only [ORes.ok.injEq, Prod.mk.injEq] at h
          obtain ⟨h1, h2, h3, h4⟩ := h
          subst h1; subst h2; subst h3; subst h4
          have hfst : (headersT r0).1 = .ok (vhlx, pvhx, r1x) := by rw [hhd]
          obtain ⟨buf, hbre, -, -, -, hr1⟩ := headersT_ok_inv r0 vhlx pvhx r1x hfst
          obtain ⟨-, hr3, -⟩ := readExact_ok_inv _ _ _ _ hre
          refine ⟨vhlx, r1x, buf2, hfst, hmd, hre, hmah, ?_⟩
          rw [hr3, hr1]
          rfl

theorem textT_ok_inv (r0 : Reader) (pvh : PhysicalVolumeHeader) (mdesc : DiskLocn)
    (mah : MetadataAreaHeader) (text : List Nat) (r2 : Reader) (ops : List ROp)
    (h : textT r0 = (.ok (pvh, mdesc, mah, text, r2), ops)) :
    ∃ r1 hops lops, (mahT r0).1 = .ok (pvh, mdesc, mah, r1) ∧
      readLocsT r1 mdesc.offset mah.location_descriptors = (.ok (text, r2), lops) ∧
      ops = hops ++ lops ∧ r1 = ⟨r0.data, mdesc.offset + 512⟩ := by
  unfold textT at h
  split at h
  next => exact absurd (congrArg Prod.fst h) (by simp)
  next => exact absurd (congrArg Prod.fst h) (by simp)
  next pvhx mdescx mahx r1x hops hmh =>
    split at h
    next => exact absurd (congrArg Prod.fst h) (by simp)
    next textx r2x lops hlo =>
      simp only [Prod.mk.injEq, ORes.ok.injEq] at h
      obtain ⟨⟨h1, h2, h3, h4, h5⟩, h6⟩ := h
      subst h1; subst h2; subst h3; subst h4; subst h5
      have hfst : (mahT r0).1 = .ok (pvhx, mdescx, mahx, r1x) := by rw [hmh]
      obtain ⟨vhl0, r10, buf20, -, -, -, -, hr1⟩ :=
        mahT_ok_inv r0 pvhx mdescx mahx r1x hfst
      exact ⟨r1x, hops, lops, hfst, by rw [hlo], by rw [h6], hr1⟩

theorem rootT_ok_inv (r0 : Reader) (pvh : PhysicalVolumeHeader)
    (root : List (List Nat × MetadataRoot)) (ops : List ROp)
    (h : rootT r0 = (.ok (pvh, root), ops)) :
    ∃ mdesc mah text r2, textT r0 = (.ok (pvh, mdesc, mah, text, r2), ops) ∧
      metaProject text = .ok root := by
  unfold rootT at h
  split at h
  next => exact absurd (congrArg Prod.fst h) (by simp)
  next => exact absurd (congrArg Prod.fst h) (by simp)
  next pvhx mdescx mahx textx r2x hops htx =>
    split at h
    next => exact absurd (congrArg Prod.fst h) (by simp)
    next rootx hmp =>
      simp only [Prod.mk.injEq, ORes.ok.injEq] at h
      obtain ⟨⟨h1, h2⟩, h3⟩ := h
      subst h1; subst h2; subst h3
      exact ⟨mdescx, mahx, textx, r2x, htx, hmp⟩

theorem open_of_rootT (r0 : Reader) (pvh : PhysicalVolumeHeader)
    (root : List (List Nat × MetadataRoot)) (ops : List ROp)
    (h : rootT r0 = (.ok (pvh, root), ops)) :
    Lvm2.open r0 = finalStage pvh root := by
  simp only [Lvm2.open, Lvm2.openT, h]

theorem open_ok_inv (r0 : Reader) (l : Lvm2) (h : Lvm2.open r0 = .ok l) :
    ∃ root ops p,
      rootT r0 = (.ok (l.pvh, root), ops) ∧
      root = [(l.vg_name, l.vg_config)] ∧
      l.vg_config.physical_volumes.find? (pvIdMatches l.pvh) = some p ∧
      l.pv_name = p.1 := by
  unfold Lvm2.open Lvm2.openT at h
  split at h
  next => exact absurd h (by simp)
  next => exact absurd h (by simp)
  next pvh root ops hro =>
    unfold finalStage at h
    split at h
    next vgn vgc =>
      split at h
      next => exact absurd h (by simp)
      next p hp =>
        injection h with h
        subst h
        exact ⟨[(vgn, vgc)], ops, p, hro, rfl, hp, rfl⟩
    next => exact absurd h (by simp)

theorem readToString_ok_inv (r : Reader) (n : Nat) (chunk : List Nat) (r1 : Reader)
    (h : r.readToString n = .ok (chunk, r1)) :
    chunk = (r.data.drop r.pos).take n ∧ validUtf8 chunk = true ∧
    r1 = ⟨r.data, r.pos + chunk.length⟩ := by
  unfold Reader.readToString at h
  split at h
  next hv =>
    simp only [Except.ok.injEq, Prod.mk.injEq] at h
    obtain ⟨h1, h2⟩ := h
    subst h1
    exact ⟨rfl, hv, h2.symm⟩
  next => exact absurd h (by simp)

theorem rootT_ok_pv_nodup (r0 : Reader) (pvh : PhysicalVolumeHeader)
    (root : List (List Nat × MetadataRoot)) (ops : List ROp)
    (h : rootT r0 = (.ok (pvh, root), ops)) :
    ∀ e ∈ root, keysNodup (e.2.physical_volumes.map (·.1)) = true := by
  obtain ⟨mdesc, mah, text, r2, htx, hmp⟩ := rootT_ok_inv r0 pvh root ops h
  unfold metaProject at hmp
  split at hmp
  next => exact absurd hmp (by simp)
  next els trailing hparse =>
    split at hmp
    next => exact absurd hmp (by simp)
    next rootx hdes =>
      injection hmp with hmp
      subst hmp
      intro e he
      obtain ⟨q, -, -, hq⟩ := deTypedMap_ok_mem deserMetadataRoot els rootx hdes e he
      exact deserMetadataRoot_pv_nodup q.2 e.2 hq

/-- From a successful `open`, the PV record found by the cross-reference
is also the one `pv_id` looks up (map keys are unique after a successful
typed-map projection). -/
theorem open_ok_pv_lookup (r0 : Reader) (l : Lvm2) (h : Lvm2.open r0 = .ok l) :
    ∃ p, l.vg_config.physical_volumes.find? (pvIdMatches l.pvh) = some p ∧
      l.pv_name = p.1 ∧
      l.vg_config.physical_volumes.lookup l.pv_name = some p.2 := by
  obtain ⟨root, ops, p, hro, hr, hfind, hname⟩ := open_ok_inv r0 l h
  have hnd : keysNodup (l.vg_config.physical_volumes.map (·.1)) = true := by
    have hmem : ((l.vg_name, l.vg_config) : List Nat × MetadataRoot) ∈ root := by
      rw [hr]
      exact List.mem_cons_self _ _
    exact rootT_ok_pv_nodup r0 l.pvh root ops hro (l.vg_name, l.vg_config) hmem
  have hlk := lookup_of_find? _ _ _ hnd hfind
  rw [← hname] at hlk
  exact ⟨p, hfind, hname, hlk⟩

theorem find?_decomp {α : Type} (p : α → Bool) (l : List α) (a : α)
    (h : l.find? p = some a) :
    ∃ l1 l2, l = l1 ++ a :: l2 ∧ (∀ x ∈ l1, p x = false) ∧ p a = true := by
  induction l with
  | nil => simp at h
  | cons b l ih =>
    cases hpb : p b with
    | true =>
      rw [List.find?_cons_of_pos l hpb] at h
      injection h with h
      subst h
      exact ⟨[], l, rfl, by simp, hpb⟩
    | false =>
      rw [List.find?_cons_of_neg l (by simp [hpb])] at h
      obtain ⟨l1, l2, he, hall, hpa⟩ := ih h
      refine ⟨b :: l1, l2, by rw [he]; rfl, ?_, hpa⟩
      intro x hx
      rcases List.mem_cons.mp hx with hx | hx
      · rw [hx]; exact hpb
      · exact hall x hx

theorem readLocsT_ok_chars (data : List Nat) (mdoff : Nat) (locs : List RawLocn) :
    ∀ p text r2 ops, readLocsT ⟨data, p⟩ mdoff locs = (.ok (text, r2), ops) →
      text = (locs.map (locChunk data mdoff)).flatten ∧
      ops = locs.flatMap (fun l =>
        [ROp.seek ((mdoff + l.data_area_offset) % 2 ^ 64),
         ROp.readStr l.data_area_size]) ∧
      ∀ l ∈ locs, validUtf8 (locChunk data mdoff l) = true := by
  induction locs with
  | nil =>
    intro p text r2 ops h
    rw [readLocsT] at h
    simp only [Prod.mk.injEq, Except.ok.injEq] at h
    obtain ⟨⟨h1, -⟩, h2⟩ := h
    subst h1; subst h2
    simp
  | cons l ls ih =>
    intro p text r2 ops h
    rw [readLocsT] at h
    split at h
    next => exact absurd (congrArg Prod.fst h) (by simp)
    next chunk r1 hrd =>
      split at h
      next => exact absurd (congrArg Prod.fst h) (by simp)
      next rest r2x ops1 hrec =>
        simp only [Prod.mk.injEq, Except.ok.injEq] at h
        obtain ⟨⟨htext, hr2⟩, hops⟩ := h
        obtain ⟨hchunk, hutf, hr1⟩ := readToString_ok_inv _ _ _ _ hrd
        have hchunk2 : chunk = locChunk data mdoff l := hchunk
        have hr1x : r1 = Reader.mk data
            (((mdoff + l.data_area_offset) % 2 ^ 64) + chunk.length) := hr1
        rw [hr1x] at hrec
        obtain ⟨ht, ho, hv⟩ := ih _ _ _ _ hrec
        refine ⟨?_, ?_, ?_⟩
        · rw [← htext, hchunk2, ht, List.map_cons, List.flatten_cons]
        · rw [← hops, ho, List.flatMap_cons]
        · intro x hx
          rcases List.mem_cons.mp hx with hx | hx
          · rw [hx, ← hchunk2]; exact hutf
          · exact hv x hx

theorem headersT_ops (r0 : Reader) :
    (headersT r0).2 = [ROp.seek 512, ROp.readE 512] := by
  unfold headersT
  split
  · rfl
  · split
    · rfl
    · split
      · split
        · rfl
        · rfl
      · rfl

/-! ### Claim theorems -/

/-- C1: `open` succeeds only if some PV record of the parsed VG has an id
that, with all dashes removed, equals the binary header's `pv_ident`; the
first such record (in map insertion order) supplies `pv_name`, and when no
record matches, `open` fails with `PVDoesntContainItself`; consequently,
for every successfully opened handle, `pv_id()` with dashes stripped
equals the binary header's `pv_ident`. -/
theorem c1_pv_self_reference (r : Reader) :
    (∀ pvh root ops n c, rootT r = (.ok (pvh, root), ops) → root = [(n, c)] →
      (c.physical_volumes.find? (pvIdMatches pvh) = none →
        Lvm2.open r = .err .PVDoesntContainItself) ∧
      (∀ p, c.physical_volumes.find? (pvIdMatches pvh) = some p →
        Lvm2.open r = .ok ⟨pvh, p.1, n, c⟩)) ∧
    (∀ l, Lvm2.open r = .ok l →
      ∃ i, l.pv_id = some i ∧
        i.filter (fun b => b ≠ 45) = l.pvh.pv_ident) := by
  constructor
  · intro pvh root ops n c hro hr
    subst hr
    constructor
    · intro hnone
      rw [open_of_rootT r pvh _ ops hro]
      simp only [finalStage, hnone]
    · intro p hsome
      rw [open_of_rootT r pvh _ ops hro]
      simp only [finalStage, hsome]
  · intro l hok
    obtain ⟨p, hfind, hname, hlk⟩ := open_ok_pv_lookup r l hok
    have hmatch : pvIdMatches l.pvh p = true := List.find?_some hfind
    unfold pvIdMatches at hmatch
    refine ⟨p.2.id, ?_, eq_of_beq hmatch⟩
    unfold Lvm2.pv_id
    rw [hlk]
    rfl

theorem c1_witness :
    Lvm2.open ⟨imgMain, 0⟩ = .ok mainLvm2 ∧
    ∃ i, mainLvm2.pv_id = some i ∧
      i.filter (fun b => b ≠ 45) = mainLvm2.pvh.pv_ident :=
  ⟨open_imgMain_eq,
   (c1_pv_self_reference ⟨imgMain, 0⟩).2 mainLvm2 open_imgMain_eq⟩

/-- C2: before parsing metadata text, `open` performs exactly: seek to
byte 512, read 512 bytes, decode the label header from them, decode the
PV header from the same sheet sliced at `data_offset`, take the first
metadata-area descriptor (failing with `MissingMetadata` when there is
none), seek to that descriptor's offset, read 512 bytes, and decode the
metadata-area header. -/
theorem c2_open_header_sequence (r0 : Reader) :
    (headersT r0).2 = [ROp.seek 512, ROp.readE 512] ∧
    (∀ vhl pvh r1, (headersT r0).1 = .ok (vhl, pvh, r1) →
      ∃ buf, (r0.seek 512).readExact 512 = .ok (buf, r1) ∧
        PhysicalVolumeLabelHeader.parse buf = .ok vhl ∧
        PhysicalVolumeHeader.parse (buf.drop vhl.data_offset) = .ok pvh) ∧
    (∀ vhl pvh r1, (headersT r0).1 = .ok (vhl, pvh, r1) →
      pvh.metadata_descriptors = [] →
      Lvm2.openT r0 = (.err .MissingMetadata, [ROp.seek 512, ROp.readE 512])) ∧
    (∀ vhl pvh r1 mdesc, (headersT r0).1 = .ok (vhl, pvh, r1) →
      pvh.metadata_descriptors.head? = some mdesc →
      (mahT r0).2 =
        [ROp.seek 512, ROp.readE 512, ROp.seek mdesc.offset, ROp.readE 512]) := by
  refine ⟨headersT_ops r0, ?_, ?_, ?_⟩
  · intro vhl pvh r1 h
    obtain ⟨buf, h1, h2, -, h4, -⟩ := headersT_ok_inv r0 vhl pvh r1 h
    exact ⟨buf, h1, h2, h4⟩
  · intro vhl pvh r1 h hempty
    have hpair : headersT r0 = (.ok (vhl, pvh, r1), [ROp.seek 512, ROp.readE 512]) := by
      rw [← h, ← headersT_ops r0]
    have hm : mahT r0 = (.err .MissingMetadata, [ROp.seek 512, ROp.readE 512]) := by
      simp only [mahT, hpair, hempty, List.head?_nil]
    simp only [Lvm2.openT, rootT, textT, hm]
  · intro vhl pvh r1 mdesc h hmd
    have hpair : headersT r0 = (.ok (vhl, pvh, r1), [ROp.seek 512, ROp.readE 512]) := by
      rw [← h, ← headersT_ops r0]
    simp only [mahT, hpair, hmd]
    split
    · rfl
    · split <;> rfl

theorem c2_witness :
    Lvm2.openT ⟨imgS1, 0⟩ = (.err .MissingMetadata, [ROp.seek 512, ROp.readE 512]) ∧
    (mahT ⟨imgMain, 0⟩).2 =
      [ROp.seek 512, ROp.readE 512, ROp.seek 1024, ROp.readE 512] := by
  constructor
  · exact (c2_open_header_sequence ⟨imgS1, 0⟩).2.2.1 ⟨1, 0, 32⟩
      ⟨List.replicate 32 65, 8192, [], []⟩ ⟨imgS1, 1024⟩
      (by rw [headersT_imgS1_eq]) rfl
  · have hh : (headersT ⟨imgMain, 0⟩).1 =
        .ok (⟨1, 0, 32⟩, mainPvh, ⟨imgMain, 1024⟩) := by
      have hm := headersT_mkImg labelSheetMain (vgText "8") ((vgText "8").length)
        ⟨1, 0, 32⟩ mainPvh (by decide) (by decide) (by decide) (by decide)
      simp only [imgMain]
      rw [hm]
    exact (c2_open_header_sequence ⟨imgMain, 0⟩).2.2.2 _ _ _ ⟨1024, 2048⟩ hh
      (by decide)

/-- C3: given that the reading stages and the typed-map deserialization
succeeded, `open` fails with `MultipleVGsError` iff the metadata document
does not have exactly one top-level section; with exactly one, that
section's name becomes `vg_name` and its body the VG model. -/
theorem c3_single_vg (r : Reader) (pvh : PhysicalVolumeHeader) (mdesc : DiskLocn)
    (mah : MetadataAreaHeader) (text : List Nat) (r2 : Reader) (ops : List ROp)
    (root : List (List Nat × MetadataRoot))
    (h1 : textT r = (.ok (pvh, mdesc, mah, text, r2), ops))
    (h2 : metaProject text = .ok root) :
    (Lvm2.open r = .err .MultipleVGsError ↔ (topSections text).length ≠ 1) ∧
    (∀ n c, root = [(n, c)] → ∀ l, Lvm2.open r = .ok l →
      l.vg_name = n ∧ l.vg_config = c) := by
  have hro : rootT r = (.ok (pvh, root), ops) := by
    simp only [rootT, h1, h2]
  have hopen : Lvm2.open r = finalStage pvh root := open_of_rootT r pvh root ops hro
  have hlen : root.length = (topSections text).length := by
    unfold metaProject at h2
    unfold topSections
    split at h2
    next => exact absurd h2 (by simp)
    next els trailing hparse =>
      split at h2
      next => exact absurd h2 (by simp)
      next rootx hdes =>
        injection h2 with h2
        subst h2
        rw [hparse]
        have hkeys := (deTypedMap_ok_nodup deserMetadataRoot els rootx hdes).2
        have := congrArg List.length hkeys
        simpa using this
  constructor
  · rw [hopen]
    constructor
    · intro hmv hone
      rw [← hlen] at hone
      obtain ⟨x, hx⟩ := List.length_eq_one.mp hone
      subst hx
      obtain ⟨n0, c0⟩ := x
      rcases hf : c0.physical_volumes.find? (pvIdMatches pvh) with - | p <;>
        simp only [finalStage, hf] at hmv <;> simp at hmv
    · intro hne
      rw [← hlen] at hne
      match root, hne with
      | [], _ => rfl
      | [x], hne => exact absurd (List.length_singleton x) hne
      | x :: y :: rest, _ => rfl
  · intro n c hr l hok
    subst hr
    rw [hopen] at hok
    rcases hf : c.physical_volumes.find? (pvIdMatches pvh) with - | p
    · simp only [finalStage, hf] at hok
      exact absurd hok (by simp)
    · simp only [finalStage, hf] at hok
      injection hok with hok
      subst hok
      exact ⟨rfl, rfl⟩

theorem c3_witness :
    mainLvm2.vg_name = asc "vg0" ∧ mainLvm2.vg_config = mkRoot 8 := by
  have ht : textT ⟨imgMain, 0⟩ =
      (.ok (mainPvh, ⟨1024, 2048⟩, mahHdr ((vgText "8").length), vgText "8",
        ⟨imgMain, 1536 + (vgText "8").length⟩),
       [.seek 512, .readE 512, .seek 1024, .readE 512, .seek 1536,
        .readStr ((vgText "8").length)]) := by
    simp only [imgMain]
    exact textT_mkImg labelSheetMain (vgText "8") ((vgText "8").length)
      ⟨1, 0, 32⟩ mainPvh (by decide) (by decide) (by decide) (by decide)
      (by decide) (Nat.le_refl _) (by decide) (by decide)
  exact (c3_single_vg ⟨imgMain, 0⟩ mainPvh ⟨1024, 2048⟩
    (mahHdr ((vgText "8").length)) (vgText "8") ⟨imgMain, 1536 + (vgText "8").length⟩
    _ [(asc "vg0", mkRoot 8)] ht (by decide)).2 (asc "vg0") (mkRoot 8) rfl
    mainLvm2 open_imgMain_eq

/-- C5 (amended): for every handle returned by `open`, `extent_size()`
returns `extent_size * 512` reduced modulo `2 ^ 64` (release-mode wrapping
multiplication), hence exactly `extent_size * 512` whenever that product
fits in a u64; `open` performs no validation that `extent_size` is
positive or that the product does not wrap. -/
theorem c5_extent_size_amended (r : Reader) (l : Lvm2)
    (_h : Lvm2.open r = .ok l) :
    l.extent_size = l.vg_config.extent_size * 512 % 2 ^ 64 ∧
    (l.vg_config.extent_size * 512 < 2 ^ 64 →
      l.extent_size = l.vg_config.extent_size * 512) :=
  ⟨rfl, fun hlt => Nat.mod_eq_of_lt hlt⟩

/-- C5 counterexample: a physical volume whose metadata carries
`extent_size = 0` opens successfully, so successfully opened handles need
not have a positive extent size. -/
theorem c5_counterexample :
    Lvm2.open ⟨imgZeroES, 0⟩ = .ok zeroESLvm2 ∧
    zeroESLvm2.vg_config.extent_size = 0 ∧ zeroESLvm2.extent_size = 0 :=
  ⟨open_imgZeroES_eq, rfl, rfl⟩

theorem c5_witness :
    Lvm2.open ⟨imgMain, 0⟩ = .ok mainLvm2 ∧ mainLvm2.extent_size = 4096 := by
  refine ⟨open_imgMain_eq, ?_⟩
  have h := (c5_extent_size_amended ⟨imgMain, 0⟩ mainLvm2 open_imgMain_eq).2
    (by norm_num [mainLvm2, mkRoot])
  rw [h]
  rfl

/-- C6 (amended): for each raw-location descriptor in order, `open` seeks
to `(first metadata descriptor's offset + data_area_offset) mod 2 ^ 64`
and reads up to `data_area_size` bytes — exactly `data_area_size` when
that many remain, fewer at end of source with no error — requiring each
chunk to be valid UTF-8; the chunks are appended into one buffer whose
concatenation is then parsed as the metadata document. -/
theorem c6_read_loop_amended :
    (∀ (data : List Nat) (p mdoff : Nat) (locs : List RawLocn) text r2 ops,
      readLocsT ⟨data, p⟩ mdoff locs = (.ok (text, r2), ops) →
      text = (locs.map (locChunk data mdoff)).flatten ∧
      ops = locs.flatMap (fun l =>
        [ROp.seek ((mdoff + l.data_area_offset) % 2 ^ 64),
         ROp.readStr l.data_area_size]) ∧
      ∀ l ∈ locs, validUtf8 (locChunk data mdoff l) = true) ∧
    (∀ (r : Reader) pvh mdesc mah text r2 ops,
      textT r = (.ok (pvh, mdesc, mah, text, r2), ops) →
      text = (mah.location_descriptors.map (locChunk r.data mdesc.offset)).flatten ∧
      Lvm2.openT r =
        ((match metaProject text with
          | .error e => ORes.err e
          | .ok root => finalStage pvh root), ops)) := by
  constructor
  · intro data p mdoff locs text r2 ops h
    exact readLocsT_ok_chars data mdoff locs p text r2 ops h
  · intro r pvh mdesc mah text r2 ops h
    obtain ⟨r1, hops, lops, hmah, hlo, hopseq, hr1⟩ :=
      textT_ok_inv r pvh mdesc mah text r2 ops h
    subst hr1
    obtain ⟨ht, -, -⟩ :=
      readLocsT_ok_chars r.data mdesc.offset mah.location_descriptors _ _ _ _ hlo
    exact ⟨ht, openT_of_textT r pvh mdesc mah text r2 ops h⟩

/-- C6 counterexample: the raw-location descriptor of `imgShort` declares
1307 bytes but only the 307 bytes of metadata text remain in the source;
`open` silently reads the 307 available bytes (`take(n).read_to_string`
stops at end of source) and still succeeds, so the loop does not read
exactly `data_area_size` bytes. -/
theorem c6_counterexample :
    textT ⟨imgShort, 0⟩ =
      (.ok (mainPvh, ⟨1024, 2048⟩, mahHdr ((vgText "8").length + 1000), vgText "8",
        ⟨imgShort, 1536 + (vgText "8").length⟩),
       [.seek 512, .readE 512, .seek 1024, .readE 512, .seek 1536,
        .readStr ((vgText "8").length + 1000)]) ∧
    (vgText "8").length = 307 ∧
    Lvm2.open ⟨imgShort, 0⟩ = .ok mainLvm2 :=
  ⟨textT_imgShort_eq, by decide, open_imgShort_eq⟩

theorem c6_witness :
    vgText "8" =
      ((mahHdr ((vgText "8").length + 1000)).location_descriptors.map
        (locChunk imgShort 1024)).flatten :=
  ((c6_read_loop_amended).2 ⟨imgShort, 0⟩ mainPvh ⟨1024, 2048⟩
    (mahHdr ((vgText "8").length + 1000)) (vgText "8")
    ⟨imgShort, 1536 + (vgText "8").length⟩ _ textT_imgShort_eq).1

/-- C7: reopening the same bytes yields structurally equal results —
`open` depends only on the byte content of the reader, not on its cursor
position (its first action is an absolute seek to byte 512), so a second
`open` over the same bytes returns a structurally equal handle (or the
same error). -/
theorem c7_reopen_idempotent (data : List Nat) (p1 p2 : Nat) :
    Lvm2.openT ⟨data, p1⟩ = Lvm2.openT ⟨data, p2⟩ := rfl

/-- C9: for every handle returned by `open`, `pv_name` is a key of the
`physical_volumes` map, so the indexing done by `pv_id` finds an entry and
never panics. -/
theorem c9_pv_id_safe (r : Reader) (l : Lvm2) (h : Lvm2.open r = .ok l) :
    ∃ v, l.vg_config.physical_volumes.lookup l.pv_name = some v ∧
      l.pv_id = some v.id := by
  obtain ⟨p, -, -, hlk⟩ := open_ok_pv_lookup r l h
  refine ⟨p.2, hlk, ?_⟩
  unfold Lvm2.pv_id
  rw [hlk]
  rfl

theorem c9_witness :
    ∃ v, mainLvm2.vg_config.physical_volumes.lookup mainLvm2.pv_name = some v ∧
      mainLvm2.pv_id = some v.id :=
  c9_pv_id_safe ⟨imgMain, 0⟩ mainLvm2 open_imgMain_eq

/-- C10: `open_lv_by_id` compares the supplied id against each LV's id by
exact equality (no dash stripping), opening the first LV in iteration
order whose id matches exactly, and returning `none` when no LV's id
matches exactly. -/
theorem c10_open_lv_by_id (l : Lvm2) (i : List Nat) :
    (l.open_lv_by_id i = none ↔
      ∀ q ∈ l.vg_config.logical_volumes, q.2.id ≠ i) ∧
    (∀ s, l.open_lv_by_id i = some s →
      ∃ l1 q l2, l.vg_config.logical_volumes = l1 ++ q :: l2 ∧ q.2.id = i ∧
        (∀ q1 ∈ l1, q1.2.id ≠ i) ∧ s = l.open_lv ⟨q.1, q.2⟩) := by
  unfold Lvm2.open_lv_by_id Lvm2.lvs
  rw [List.find?_map]
  constructor
  · simp only [Option.map_eq_none', List.find?_eq_none, Function.comp, LV.id]
    constructor
    · intro hall q hq
      have := hall q hq
      simpa using this
    · intro hall q hq
      simpa using hall q hq
  · intro s hs
    rw [Option.map_eq_some'] at hs
    obtain ⟨lv0, hlv0, hs⟩ := hs
    rw [Option.map_eq_some'] at hlv0
    obtain ⟨q0, hq0, hmk⟩ := hlv0
    obtain ⟨l1, l2, he, hall, hpa⟩ := find?_decomp _ _ _ hq0
    refine ⟨l1, q0, l2, he, ?_, ?_, ?_⟩
    · have : ((⟨q0.1, q0.2⟩ : LV).id == i) = true := hpa
      exact eq_of_beq this
    · intro q1 hq1
      have hfalse := hall q1 hq1
      intro heq
      rw [show ((fun lv => lv.id == i) ∘ fun p => (⟨p.1, p.2⟩ : LV)) q1 =
          (q1.2.id == i) from rfl] at hfalse
      rw [heq] at hfalse
      simp at hfalse
    · rw [← hs, ← hmk]

theorem c10_witness :
    Lvm2.open_lv_by_id demoLvm2 (asc "LVIDAAAA") = none :=
  (c10_open_lv_by_id demoLvm2 (asc "LVIDAAAA")).1.mpr (by decide)

/-- C4: the crate's error taxonomy (`src/src/lib.rs:26-49`) has no
`ForeignPV` variant — every `Error` value carries one of the seven
declared variant names, none of which is `ForeignPV` — so an LV read that
resolves to a foreign PV cannot fail with a dedicated `ForeignPV` error. -/
theorem c4_no_foreign_pv_variant :
    Error.ctorNames.contains "ForeignPV" = false ∧
    ∀ e : Error, Error.ctorNames.contains (Error.variantName e) = true := by
  refine ⟨by decide, fun e => ?_⟩
  cases e <;> rfl

/-! ### Byte-overwrite lemmas (for the checksum-independence claim) -/

theorem ow_length (b : List Nat) (a : Nat) (r : List Nat)
    (h : a + r.length ≤ b.length) : (ow b a r).length = b.length := by
  unfold ow
  simp only [List.length_append, List.length_take, List.length_drop]
  omega

theorem ow_getElem?_lt (b : List Nat) (a : Nat) (r : List Nat) (i : Nat)
    (hab : a ≤ b.length) (hi : i < a) : (ow b a r)[i]? = b[i]? := by
  unfold ow
  rw [List.getElem?_append_left (by simp only [List.length_take]; omega)]
  exact List.getElem?_take_of_lt hi

theorem ow_getElem?_mid (b : List Nat) (a : Nat) (r : List Nat) (i : Nat)
    (hab : a + r.length ≤ b.length) (h1 : a ≤ i) (h2 : i < a + r.length) :
    (ow b a r)[i]? = r[i - a]? := by
  unfold ow
  rw [List.getElem?_append_right (by simp only [List.length_take]; omega)]
  rw [List.getElem?_append_left (by simp only [List.length_take]; omega)]
  congr 1
  simp only [List.length_take]
  omega

theorem ow_getElem?_ge (b : List Nat) (a : Nat) (r : List Nat) (i : Nat)
    (hab : a ≤ b.length) (hge : a + r.length ≤ i) : (ow b a r)[i]? = b[i]? := by
  unfold ow
  rw [List.getElem?_append_right (by simp only [List.length_take]; omega)]
  rw [List.getElem?_append_right (by simp only [List.length_take]; omega)]
  rw [List.getElem?_drop]
  congr 1
  simp only [List.length_take]
  omega

theorem ow_append_inner (xs ys c : List Nat) (a : Nat) :
    ow (xs ++ ys) (xs.length + a) c = xs ++ ow ys a c := by
  unfold ow
  rw [List.take_append_eq_append_take, List.drop_append_eq_append_drop]
  rw [List.take_of_length_le (by omega), List.drop_eq_nil_of_le (by omega)]
  rw [Nat.add_sub_cancel_left, List.nil_append,
    show xs.length + a + c.length - xs.length = a + c.length from by omega]
  simp [List.append_assoc]

theorem ow_append_left (xs ys c : List Nat) (a : Nat)
    (h : a + c.length ≤ xs.length) : ow (xs ++ ys) a c = ow xs a c ++ ys := by
  unfold ow
  rw [List.take_append_of_le_length (by omega),
    List.drop_append_of_le_length (by omega)]
  simp [List.append_assoc]

theorem slice_getElem? (b : List Nat) (p n i : Nat) :
    ((b.drop p).take n)[i]? = if i < n then b[p + i]? else none := by
  rw [List.getElem?_take]
  split
  · rw [List.getElem?_drop]
  · rfl

theorem slice_congr (b1 b2 : List Nat) (p n : Nat)
    (h : ∀ i, i < n → b1[p + i]? = b2[p + i]?) :
    (b1.drop p).take n = (b2.drop p).take n := by
  apply List.ext_getElem?
  intro i
  rw [slice_getElem?, slice_getElem?]
  split
  next hi => exact h i hi
  next => rfl

theorem readBytes_append (l r : List Nat) (n : Nat) (h : l.length = n) :
    readBytes n (l ++ r) = some (l, r) := by
  unfold readBytes
  rw [if_pos (by simp only [List.length_append]; omega)]
  rw [List.take_left' h, List.drop_left' h]

theorem readBytes_split (buf : List Nat) (n : Nat) (h : n ≤ buf.length) :
    readBytes n buf = some (buf.take n, buf.drop n) := by
  unfold readBytes
  rw [if_pos h]

theorem readU32_append (l r : List Nat) (h : l.length = 4) :
    readU32 (l ++ r) = some (le l, r) := by
  unfold readU32
  rw [readBytes_append l r 4 h]
  rfl

theorem readU64_append (l r : List Nat) (h : l.length = 8) :
    readU64 (l ++ r) = some (le l, r) := by
  unfold readU64
  rw [readBytes_append l r 8 h]
  rfl

/-- Overwriting the label-header checksum field (bytes 16..20 of the label
sheet) only changes the decoded checksum; signature, sector number,
data-offset and type indicator are untouched. -/
theorem PVLH_parse_ow (buf c : List Nat) (vhl : PhysicalVolumeLabelHeader)
    (hb : buf.length = 512) (hc : c.length = 4)
    (h : PhysicalVolumeLabelHeader.parse buf = .ok vhl) :
    PhysicalVolumeLabelHeader.parse (ow buf 16 c) =
      .ok ⟨vhl.sector_number, le c, vhl.data_offset⟩ := by
  have e1 : readBytes 8 buf = some (buf.take 8, buf.drop 8) :=
    readBytes_split buf 8 (by omega)
  have e2 : readU64 (buf.drop 8) = some (le ((buf.drop 8).take 8), buf.drop 16) := by
    unfold readU64
    rw [readBytes_split _ 8 (by simp only [List.length_drop]; omega)]
    simp only [Option.map_some', List.drop_drop]
  have e3 : readU32 (buf.drop 16) = some (le ((buf.drop 16).take 4), buf.drop 20) := by
    unfold readU32
    rw [readBytes_split _ 4 (by simp only [List.length_drop]; omega)]
    simp only [Option.map_some', List.drop_drop]
  have e4 : readU32 (buf.drop 20) = some (le ((buf.drop 20).take 4), buf.drop 24) := by
    unfold readU32
    rw [readBytes_split _ 4 (by simp only [List.length_drop]; omega)]
    simp only [Option.map_some', List.drop_drop]
  have e5 : readBytes 8 (buf.drop 24) = some ((buf.drop 24).take 8, buf.drop 32) := by
    rw [readBytes_split _ 8 (by simp only [List.length_drop]; omega)]
    simp only [List.drop_drop]
  unfold PhysicalVolumeLabelHeader.parse at h
  simp only [e1, e2, e3, e4, e5] at h
  split at h
  next => exact absurd h (by simp)
  next hsig =>
    split at h
    next => exact absurd h (by simp)
    next hty =>
      injection h with h
      subst h
      have how : ow buf 16 c = buf.take 16 ++ (c ++ buf.drop 20) := by
        unfold ow
        rw [hc]
      have ht16 : (buf.take 16).length = 16 := by
        simp only [List.length_take]
        omega
      have f1 : readBytes 8 (buf.take 16 ++ (c ++ buf.drop 20)) =
          some (buf.take 8, (buf.take 16).drop 8 ++ (c ++ buf.drop 20)) := by
        rw [readBytes_split _ 8
          (by simp only [List.length_append, ht16]; omega)]
        rw [List.take_append_of_le_length (by omega),
          List.drop_append_of_le_length (by omega)]
        rw [List.take_take]
        norm_num
      have f2 : readU64 ((buf.take 16).drop 8 ++ (c ++ buf.drop 20)) =
          some (le ((buf.drop 8).take 8), c ++ buf.drop 20) := by
        unfold readU64
        rw [readBytes_append _ _ 8 (by simp only [List.length_drop, ht16])]
        rw [show (buf.take 16).drop 8 = (buf.drop 8).take 8 from by
          rw [List.take_drop]]
        rfl
      have f3 : readU32 (c ++ buf.drop 20) = some (le c, buf.drop 20) :=
        readU32_append _ _ hc
      unfold PhysicalVolumeLabelHeader.parse
      rw [how]
      simp only [f1, f2, f3, e4, e5]
      rw [if_neg hsig, if_neg hty]

/-- Overwriting the metadata-area-header checksum field (its first four
bytes) only changes the decoded checksum; every other field, including the
raw-location descriptors, is untouched. -/
theorem MAH_parse_ow (bufM c2 : List Nat) (mah : MetadataAreaHeader)
    (hb : bufM.length = 512) (hc : c2.length = 4)
    (h : MetadataAreaHeader.parse bufM = .ok mah) :
    MetadataAreaHeader.parse (c2 ++ bufM.drop 4) =
      .ok ⟨le c2, mah.version, mah.metadata_area_offset, mah.metadata_area_size,
           mah.location_descriptors⟩ := by
  have e1 : readU32 bufM = some (le (bufM.take 4), bufM.drop 4) := by
    unfold readU32
    rw [readBytes_split _ 4 (by omega)]
    rfl
  have hlen : (c2 ++ bufM.drop 4).length = bufM.length := by
    simp only [List.length_append, List.length_drop, hc]
    omega
  have f1 : readU32 (c2 ++ bufM.drop 4) = some (le c2, bufM.drop 4) :=
    readU32_append _ _ hc
  unfold MetadataAreaHeader.parse at h
  simp only [e1] at h
  split at h
  next => exact absurd h (by simp)
  next sig r2 hsb =>
    split at h
    next => exact absurd h (by simp)
    next hsig =>
      split at h
      next => exact absurd h (by simp)
      next ver r3 hver =>
        split at h
        next => exact absurd h (by simp)
        next maoff r4 hmo =>
          split at h
          next => exact absurd h (by simp)
          next masz r5 hms =>
            split at h
            next => exact absurd h (by simp)
            next locs r6 hlocs =>
              injection h with h
              subst h
              unfold MetadataAreaHeader.parse
              simp only [f1, hsb, hver, hmo, hms, hlen, hlocs]
              rw [if_neg hsig]

/-- The metadata-text read loop behaves identically over two byte sources
that agree on every byte position any descriptor's read range touches. -/
theorem readLocsT_congr (data b2 : List Nat) (mdoff : Nat) (locs : List RawLocn)
    (hag : ∀ l ∈ locs, ∀ i, i < l.data_area_size →
      b2[(mdoff + l.data_area_offset) % 2 ^ 64 + i]? =
        data[(mdoff + l.data_area_offset) % 2 ^ 64 + i]?) :
    ∀ p, readLocsT ⟨b2, p⟩ mdoff locs =
      (match readLocsT ⟨data, p⟩ mdoff locs with
       | (.ok (text, r2), ops) => (.ok (text, ⟨b2, r2.pos⟩), ops)
       | (.error e, ops) => (.error e, ops)) := by
  induction locs with
  | nil => intro p; rfl
  | cons l ls ih =>
    intro p
    have hchunk :
        (b2.drop ((mdoff + l.data_area_offset) % 2 ^ 64)).take l.data_area_size =
        (data.drop ((mdoff + l.data_area_offset) % 2 ^ 64)).take l.data_area_size := by
      apply List.ext_getElem?
      intro i
      rw [slice_getElem?, slice_getElem?]
      split
      next hi => exact hag l (List.mem_cons_self l ls) i hi
      next => rfl
    have ih2 := ih (fun l2 hl2 => hag l2 (List.mem_cons_of_mem _ hl2))
    by_cases hv : validUtf8 ((data.drop ((mdoff + l.data_area_offset) % 2 ^ 64)).take
        l.data_area_size) = true
    · have hB : ((Reader.mk b2 p).seek ((mdoff + l.data_area_offset) % 2 ^ 64)).readToString
          l.data_area_size =
          .ok ((data.drop ((mdoff + l.data_area_offset) % 2 ^ 64)).take l.data_area_size,
            ⟨b2, (mdoff + l.data_area_offset) % 2 ^ 64 +
              ((data.drop ((mdoff + l.data_area_offset) % 2 ^ 64)).take
                l.data_area_size).length⟩) := by
        simp only [Reader.seek, Reader.readToString, hchunk, if_pos hv]
      have hD : ((Reader.mk data p).seek ((mdoff + l.data_area_offset) % 2 ^ 64)).readToString
          l.data_area_size =
          .ok ((data.drop ((mdoff + l.data_area_offset) % 2 ^ 64)).take l.data_area_size,
            ⟨data, (mdoff + l.data_area_offset) % 2 ^ 64 +
              ((data.drop ((mdoff + l.data_area_offset) % 2 ^ 64)).take
                l.data_area_size).length⟩) := by
        simp only [Reader.seek, Reader.readToString, if_pos hv]
      simp only [readLocsT, hB, hD]
      rw [ih2]
      rcases hx : readLocsT
          ⟨data, (mdoff + l.data_area_offset) % 2 ^ 64 +
            ((data.drop ((mdoff + l.data_area_offset) % 2 ^ 64)).take
              l.data_area_size).length⟩ mdoff ls with ⟨res, ops⟩
      rcases res with e | ⟨rest, r2⟩ <;> rfl
    · have hB : ((Reader.mk b2 p).seek ((mdoff + l.data_area_offset) % 2 ^ 64)).readToString
          l.data_area_size = .error (.Io "stream did not contain valid UTF-8") := by
        simp only [Reader.seek, Reader.readToString, hchunk, if_neg hv]
      have hD : ((Reader.mk data p).seek ((mdoff + l.data_area_offset) % 2 ^ 64)).readToString
          l.data_area_size = .error (.Io "stream did not contain valid UTF-8") := by
        simp only [Reader.seek, Reader.readToString, if_neg hv]
      simp only [readLocsT, hB, hD]

/-- C8 (amended): `open` verifies no checksum, and the checksum fields do
not influence its outcome as long as no later read overlaps them: when
the label header's `data_offset` is at least 20 (so the PV header slice
starts after the label checksum field), the metadata area starts at or
after byte 1024, and every raw-location read range avoids both the label
checksum field (bytes 528..532) and the metadata-area-header checksum
field (its first four bytes), replacing those two fields by arbitrary
four-byte values yields the identical outcome.  (When such an overlap
does occur the checksum bytes can change the outcome — see the
counterexample.) -/
theorem c8_checksums_amended (data c c2 : List Nat)
    (vhl : PhysicalVolumeLabelHeader) (pvh : PhysicalVolumeHeader)
    (mdesc : DiskLocn) (mah : MetadataAreaHeader) (r1 r3 : Reader)
    (hc : c.length = 4) (hc2 : c2.length = 4)
    (hh : (headersT ⟨data, 0⟩).1 = .ok (vhl, pvh, r1))
    (hdo : 20 ≤ vhl.data_offset)
    (hm : (mahT ⟨data, 0⟩).1 = .ok (pvh, mdesc, mah, r3))
    (hmo : 1024 ≤ mdesc.offset)
    (hloc : ∀ l ∈ mah.location_descriptors,
      ((mdesc.offset + l.data_area_offset) % 2 ^ 64 + l.data_area_size ≤ 528 ∨
        532 ≤ (mdesc.offset + l.data_area_offset) % 2 ^ 64) ∧
      ((mdesc.offset + l.data_area_offset) % 2 ^ 64 + l.data_area_size ≤
          mdesc.offset ∨
        mdesc.offset + 4 ≤ (mdesc.offset + l.data_area_offset) % 2 ^ 64)) :
    Lvm2.open ⟨ow (ow data 528 c) mdesc.offset c2, 0⟩ = Lvm2.open ⟨data, 0⟩ := by
  obtain ⟨buf, hre, hlp, hle512, hpp, hr1e⟩ := headersT_ok_inv ⟨data, 0⟩ vhl pvh r1 hh
  subst hr1e
  obtain ⟨hbufeq, -, hbnd1⟩ := readExact_ok_inv _ _ _ _ hre
  simp only [Reader.seek] at hbufeq hbnd1
  obtain ⟨vhl0, r10, buf2, hh0, hmd, hre2, hmp2, hr3e⟩ :=
    mahT_ok_inv ⟨data, 0⟩ pvh mdesc mah r3 hm
  subst hr3e
  rw [hh] at hh0
  simp only [ORes.ok.injEq, Prod.mk.injEq] at hh0
  obtain ⟨hv0, -, hr10⟩ := hh0
  subst hv0
  subst hr10
  obtain ⟨hbuf2eq, -, hbnd2⟩ := readExact_ok_inv _ _ _ _ hre2
  simp only [Reader.seek] at hbuf2eq hbnd2
  have hbl : buf.length = 512 := by
    rw [hbufeq]
    simp only [List.length_take, List.length_drop]
    omega
  have hb2l : buf2.length = 512 := by
    rw [hbuf2eq]
    simp only [List.length_take, List.length_drop]
    omega
  have hlen_ow1 : (ow data 528 c).length = data.length :=
    ow_length _ _ _ (by rw [hc]; omega)
  have hlenb2 : (ow (ow data 528 c) mdesc.offset c2).length = data.length := by
    rw [ow_length _ _ _ (by rw [hc2, hlen_ow1]; omega), hlen_ow1]
  have hagree : ∀ i, (i < 528 ∨ 532 ≤ i) → (i < mdesc.offset ∨ mdesc.offset + 4 ≤ i) →
      (ow (ow data 528 c) mdesc.offset c2)[i]? = data[i]? := by
    intro i h1 h2
    have step1 : (ow (ow data 528 c) mdesc.offset c2)[i]? = (ow data 528 c)[i]? := by
      rcases h2 with h2 | h2
      · exact ow_getElem?_lt _ _ _ _ (by rw [hlen_ow1]; omega) h2
      · exact ow_getElem?_ge _ _ _ _ (by rw [hlen_ow1]; omega) (by rw [hc2]; omega)
    rw [step1]
    rcases h1 with h1 | h1
    · exact ow_getElem?_lt _ _ _ _ (by omega) h1
    · exact ow_getElem?_ge _ _ _ _ (by omega) (by rw [hc]; omega)
  have hsliceB : ((ow (ow data 528 c) mdesc.offset c2).drop 512).take 512 =
      ow buf 16 c := by
    apply List.ext_getElem?
    intro i
    rw [slice_getElem?]
    by_cases hi : i < 512
    · rw [if_pos hi]
      by_cases hlo : i < 16
      · rw [ow_getElem?_lt _ _ _ _ (by omega) hlo, hbufeq, slice_getElem?, if_pos hi]
        exact hagree (512 + i) (by omega) (by omega)
      · by_cases hmid : i < 20
        · rw [ow_getElem?_mid buf 16 c i (by rw [hc, hbl]; omega) (by omega)
            (by rw [hc]; omega)]
          have hbm : (ow (ow data 528 c) mdesc.offset c2)[512 + i]? =
              getElem? c (512 + i - 528) := by
            rw [ow_getElem?_lt (ow data 528 c) mdesc.offset c2 (512 + i)
              (by rw [hlen_ow1]; omega) (by omega)]
            exact ow_getElem?_mid data 528 c (512 + i) (by rw [hc]; omega) (by omega)
              (by rw [hc]; omega)
          rw [hbm]
          congr 1
          omega
        · rw [ow_getElem?_ge buf 16 c i (by rw [hbl]; omega) (by rw [hc]; omega),
            hbufeq, slice_getElem?, if_pos hi]
          exact hagree (512 + i) (by omega) (by omega)
    · rw [if_neg hi]
      rw [List.getElem?_eq_none]
      rw [ow_length _ _ _ (by rw [hc, hbl]; omega), hbl]
      omega
  have hreB : ((Reader.mk (ow (ow data 528 c) mdesc.offset c2) 0).seek 512).readExact
      512 = .ok (ow buf 16 c, ⟨ow (ow data 528 c) mdesc.offset c2, 1024⟩) := by
    rw [readExact_eq _ _ (by simp only [Reader.seek]; rw [hlenb2]; omega)]
    rw [show ((Reader.mk (ow (ow data 528 c) mdesc.offset c2) 0).seek 512).data =
      ow (ow data 528 c) mdesc.offset c2 from rfl]
    rw [show ((Reader.mk (ow (ow data 528 c) mdesc.offset c2) 0).seek 512).pos =
      512 from rfl]
    rw [hsliceB]
  have hlpB := PVLH_parse_ow buf c vhl hbl hc hlp
  have hdropB : (ow buf 16 c).drop vhl.data_offset = buf.drop vhl.data_offset := by
    apply List.ext_getElem?
    intro i
    rw [List.getElem?_drop, List.getElem?_drop]
    exact ow_getElem?_ge _ _ _ _ (by rw [hbl]; omega) (by rw [hc]; omega)
  have hhB : headersT ⟨ow (ow data 528 c) mdesc.offset c2, 0⟩ =
      (.ok (⟨vhl.sector_number, le c, vhl.data_offset⟩, pvh,
        ⟨ow (ow data 528 c) mdesc.offset c2, 1024⟩),
       [ROp.seek 512, ROp.readE 512]) := by
    simp only [headersT, hreB, hlpB]
    rw [if_pos (show (PhysicalVolumeLabelHeader.mk vhl.sector_number (le c)
      vhl.data_offset).data_offset ≤ 512 from hle512)]
    rw [hdropB]
    simp only [hpp]
  have hslice2B : ((ow (ow data 528 c) mdesc.offset c2).drop mdesc.offset).take 512 =
      c2 ++ buf2.drop 4 := by
    apply List.ext_getElem?
    intro i
    rw [slice_getElem?]
    by_cases hi : i < 512
    · rw [if_pos hi]
      by_cases hlo : i < 4
      · rw [List.getElem?_append_left (by omega)]
        rw [ow_getElem?_mid _ _ _ _ (by rw [hc2, hlen_ow1]; omega) (by omega)
          (by rw [hc2]; omega)]
        congr 1
        omega
      · rw [List.getElem?_append_right (by rw [hc2]; omega)]
        rw [List.getElem?_drop, hc2]
        rw [show (4 : Nat) + (i - 4) = i from by omega]
        rw [hbuf2eq, slice_getElem?, if_pos hi]
        have hstep : (ow (ow data 528 c) mdesc.offset c2)[mdesc.offset + i]? =
            (ow data 528 c)[mdesc.offset + i]? :=
          ow_getElem?_ge _ _ _ _ (by rw [hlen_ow1]; omega) (by rw [hc2]; omega)
        rw [hstep]
        exact ow_getElem?_ge _ _ _ _ (by omega) (by rw [hc]; omega)
    · rw [if_neg hi]
      rw [List.getElem?_eq_none]
      simp only [List.length_append, List.length_drop, hc2, hb2l]
      omega
  have hre2B : ((Reader.mk (ow (ow data 528 c) mdesc.offset c2) 1024).seek
      mdesc.offset).readExact 512 =
      .ok (c2 ++ buf2.drop 4,
        ⟨ow (ow data 528 c) mdesc.offset c2, mdesc.offset + 512⟩) := by
    rw [readExact_eq _ _ (by simp only [Reader.seek]; rw [hlenb2]; omega)]
    rw [show ((Reader.mk (ow (ow data 528 c) mdesc.offset c2) 1024).seek
      mdesc.offset).data = ow (ow data 528 c) mdesc.offset c2 from rfl]
    rw [show ((Reader.mk (ow (ow data 528 c) mdesc.offset c2) 1024).seek
      mdesc.offset).pos = mdesc.offset from rfl]
    rw [hslice2B]
  have hmpB := MAH_parse_ow buf2 c2 mah hb2l hc2 hmp2
  have hmB : mahT ⟨ow (ow data 528 c) mdesc.offset c2, 0⟩ =
      (.ok (pvh, mdesc,
        ⟨le c2, mah.version, mah.metadata_area_offset, mah.metadata_area_size,
         mah.location_descriptors⟩,
        ⟨ow (ow data 528 c) mdesc.offset c2, mdesc.offset + 512⟩),
       [ROp.seek 512, ROp.readE 512, ROp.seek mdesc.offset, ROp.readE 512]) := by
    simp only [Reader.seek] at hre2B
    simp only [mahT, hhB, hmd, Reader.seek, hre2B]
    simp only [hmpB]
    rfl
  have hpairH : headersT ⟨data, 0⟩ =
      (.ok (vhl, pvh, ⟨data, 1024⟩), [ROp.seek 512, ROp.readE 512]) := by
    rw [← hh, ← headersT_ops ⟨data, 0⟩]
  have hmD : mahT ⟨data, 0⟩ =
      (.ok (pvh, mdesc, mah, ⟨data, mdesc.offset + 512⟩),
       [ROp.seek 512, ROp.readE 512, ROp.seek mdesc.offset, ROp.readE 512]) := by
    simp only [Reader.seek] at hre2
    simp only [mahT, hpairH, hmd, Reader.seek, hre2]
    simp only [hmp2]
    rfl
  have hag : ∀ l ∈ mah.location_descriptors, ∀ i, i < l.data_area_size →
      (ow (ow data 528 c) mdesc.offset c2)[(mdesc.offset + l.data_area_offset) %
        2 ^ 64 + i]? =
      data[(mdesc.offset + l.data_area_offset) % 2 ^ 64 + i]? := by
    intro l hl i hi
    obtain ⟨h1, h2⟩ := hloc l hl
    exact hagree _ (by omega) (by omega)
  have hRL := readLocsT_congr data (ow (ow data 528 c) mdesc.offset c2)
    mdesc.offset mah.location_descriptors hag (mdesc.offset + 512)
  simp only [Lvm2.open, Lvm2.openT, rootT, textT, hmB, hmD, hRL]
  rcases hx : readLocsT ⟨data, mdesc.offset + 512⟩ mdesc.offset
      mah.location_descriptors with ⟨res, lops⟩
  rcases res with e | ⟨text, r2⟩
  · rfl
  · rcases metaProject text with e | root <;> rfl

theorem ow_sheetOverlap :
    ow (sheetOverlap [65, 65, 65, 65]) 16 [66, 66, 66, 66] =
    sheetOverlap [66, 66, 66, 66] := by decide

/-- Counterexample to the unrestricted claim that the checksum fields never
influence the outcome of `open`: the images `imgOverlapA` and `imgOverlapB`
differ only in the four label-checksum bytes (bytes 528..531 of the source),
yet the first opens successfully while the second fails with
`PVDoesntContainItself` — their label header has `data_offset = 16`, so the
decoded pv-ident overlaps the checksum field. -/
theorem c8_counterexample :
    imgOverlapB = ow imgOverlapA 528 [66, 66, 66, 66] ∧
    Lvm2.open ⟨imgOverlapA, 0⟩ = .ok overlapLvm2 ∧
    Lvm2.open ⟨imgOverlapB, 0⟩ = .err .PVDoesntContainItself := by
  refine ⟨?_, open_imgOverlapA_eq, open_imgOverlapB_eq⟩
  rw [show imgOverlapA = List.replicate 512 0 ++ (sheetOverlap [65, 65, 65, 65]
    ++ (mahRegion textOverlap.length ++ textOverlap)) from by
      simp [imgOverlapA, mkImg, List.append_assoc]]
  rw [show (528 : Nat) = (List.replicate (α := Nat) 512 0).length + 16 from by simp]
  rw [ow_append_inner, ow_append_left _ _ _ _ (by decide), ow_sheetOverlap]
  simp [imgOverlapB, mkImg, List.append_assoc]

theorem headersT_imgMain_cks : (headersT ⟨imgMain, 0⟩).1 =
    .ok (⟨1, 0, 32⟩, mainPvh, ⟨imgMain, 1024⟩) := by
  rw [show imgMain = mkImg labelSheetMain (vgText "8").length (vgText "8") from rfl,
    headersT_mkImg labelSheetMain (vgText "8") ((vgText "8").length)
      ⟨1, 0, 32⟩ mainPvh (by decide) (by decide) (by decide) (by decide)]

theorem mahT_imgMain_cks : (mahT ⟨imgMain, 0⟩).1 =
    .ok (mainPvh, ⟨1024, 2048⟩, mahHdr (vgText "8").length, ⟨imgMain, 1536⟩) := by
  rw [show imgMain = mkImg labelSheetMain (vgText "8").length (vgText "8") from rfl,
    mahT_mkImg labelSheetMain (vgText "8") ((vgText "8").length)
      ⟨1, 0, 32⟩ mainPvh (by decide) (by decide) (by decide) (by decide)
      (by decide) (by decide)]

/-- Witness for the amended C8 theorem: on the well-separated image
`imgMain` (label `data_offset = 32`, metadata area at 1024, text read at
1536), overwriting both checksum fields with arbitrary values leaves the
outcome of `open` unchanged. -/
theorem c8_witness :
    Lvm2.open ⟨ow (ow imgMain 528 [1, 2, 3, 4]) 1024 [5, 6, 7, 8], 0⟩ =
      Lvm2.open ⟨imgMain, 0⟩ :=
  c8_checksums_amended imgMain [1, 2, 3, 4] [5, 6, 7, 8] ⟨1, 0, 32⟩ mainPvh
    ⟨1024, 2048⟩ (mahHdr (vgText "8").length) ⟨imgMain, 1024⟩ ⟨imgMain, 1536⟩
    (by decide) (by decide) headersT_imgMain_cks (by decide) mahT_imgMain_cks
    (by decide) (by decide)

end ExhumeLvm
